import Mathlib

/-!
Verification of the vimtrader candle-editing engine.

The Python sources are shallowly embedded: pandas DataFrames become ordered
lists of named columns of rational numbers, Python floats become rationals,
fallible code returns `Option` (`none` models a raised exception), and
functions returning `(value, error)` pairs keep that shape.
-/

namespace VimTrader

/-- A Python value as it can appear in a command-parameter dictionary or as
the `direction` argument: an int, a float, or a string.  Rationals stand in
for floats. -/
inductive PVal where
  | pint (i : ℤ)
  | pfloat (q : ℚ)
  | pstr (s : String)
deriving DecidableEq, Repr

/-- `isinstance(v, (int, float))`. -/
def PVal.isNumber : PVal → Bool
  | .pint _ => true
  | .pfloat _ => true
  | .pstr _ => false

/-- Numeric value of a `PVal`; only used after an `isNumber` check. -/
def PVal.toRat : PVal → ℚ
  | .pint i => (i : ℚ)
  | .pfloat q => q
  | .pstr _ => 0

/-- `str(v)` as used inside f-string error messages.  (The exact rendering of
a float is irrelevant to every claim; only the string branch is ever
observed.) -/
def PVal.pyStr : PVal → String
  | .pint i => toString i
  | .pfloat q => toString q
  | .pstr s => s

/-- A pandas DataFrame: its ordered list of named numeric columns. -/
abbrev DataFrame := List (String × List ℚ)

/-- `df[c]`: the first column named `c`, if any. -/
def getCol : DataFrame → String → Option (List ℚ)
  | [], _ => none
  | (n, vs) :: rest, c => if n = c then some vs else getCol rest c

/-- `df.columns`. -/
def colNames (df : DataFrame) : List String := df.map Prod.fst

/-- `len(df)`: the number of rows (length of the first column; pandas keeps
all columns the same length). -/
def dfLen : DataFrame → ℕ
  | [] => 0
  | (_, vs) :: _ => vs.length

/-- `df.iloc[i][c]`: the value at row `i` of column `c`; `none` models the
KeyError / IndexError the Python would raise. -/
def dfAt (df : DataFrame) (i : ℕ) (c : String) : Option ℚ :=
  (getCol df c).bind fun vs => vs.get? i

/-- `df.iloc[i, df.columns.get_loc(c)] = v`: write `v` at row `i` of the
first column named `c`; `none` models the exception raised when the column
is absent or the row index is out of bounds. -/
def dfSet : DataFrame → ℕ → String → ℚ → Option DataFrame
  | [], _, _, _ => none
  | (n, vs) :: rest, i, c, v =>
    if n = c then
      if i < vs.length then some ((n, vs.set i v) :: rest) else none
    else (dfSet rest i c v).map fun d => (n, vs) :: d

/-- Row `i` carries all four OHLC fields and satisfies the OHLC invariant
`high ≥ max(open, close)` and `low ≤ min(open, close)`. -/
def rowValidB (df : DataFrame) (i : ℕ) : Bool :=
  match dfAt df i "Open", dfAt df i "High", dfAt df i "Low", dfAt df i "Close" with
  | some o, some h, some l, some c => decide (max o c ≤ h) && decide (l ≤ min o c)
  | _, _, _, _ => false

/-- Python `str.capitalize()`: first character upper-cased, remainder
lower-cased. -/
def pyCapitalize (s : String) : String :=
  match s.data with
  | [] => ""
  | c :: cs => String.mk (c.toUpper :: cs.map Char.toLower)

/-- `state.apply_candle_adjustment`: validate, write the stepped value into
the chosen field, then re-derive High (extend to `max(open, close)` when
exceeded) and Low (extend to `min(open, close)` when undercut).  The
`isinstance(direction, (int, float))` check is the only direction
validation. -/
def apply_candle_adjustment (df : DataFrame) (candle_index : ℤ) (value_type : String)
    (direction : PVal) : Option (DataFrame × Option String) :=
  if candle_index < 0 ∨ (dfLen df : ℤ) ≤ candle_index then
    some (df, some ("Candle index " ++ toString candle_index ++ " out of range"))
  else if ¬ (value_type ∈ (["high", "low", "open", "close"] : List String)) then
    some (df, some ("Invalid value type: " ++ value_type))
  else if ¬ direction.isNumber then
    some (df, some ("Invalid direction: " ++ direction.pyStr))
  else
    let i := candle_index.toNat
    let adjustment : ℚ := 1.0 * direction.toRat
    let column_name := pyCapitalize value_type
    match dfAt df i column_name with
    | none => none
    | some current_value =>
      let new_value := current_value + adjustment
      match dfSet df i column_name new_value with
      | none => none
      | some df1 =>
        match dfAt df1 i "Open", dfAt df1 i "Close", dfAt df1 i "High", dfAt df1 i "Low" with
        | some candle_open, some candle_close, some candle_high, some candle_low =>
          let new_high := if max candle_open candle_close > candle_high then
            max candle_open candle_close else candle_high
          match dfSet df1 i "High" new_high with
          | none => none
          | some df2 =>
            let new_low := if min candle_open candle_close < candle_low then
              min candle_open candle_close else candle_low
            (dfSet df2 i "Low" new_low).map fun df3 => (df3, none)
        | _, _, _, _ => none

/-- The plugin-level `adjust_candle_value`: validates `direction in [1, -1]`
(numeric equality, so `1.0` also passes) and clamps an edited High up to
`max(open, close, low)` (resp. Low down to `min(open, close, high)`) before
the single write. -/
def adjust_candle_value (df : DataFrame) (candle_index : ℤ) (value_type : String)
    (direction : PVal) : Option (DataFrame × Option String) :=
  if candle_index < 0 ∨ (dfLen df : ℤ) ≤ candle_index then
    some (df, some ("Candle index " ++ toString candle_index ++ " out of range"))
  else if ¬ (value_type ∈ (["high", "low", "open", "close"] : List String)) then
    some (df, some ("Invalid value type: " ++ value_type))
  else if ¬ (direction.isNumber ∧ (direction.toRat = 1 ∨ direction.toRat = -1)) then
    some (df, some ("Invalid direction: " ++ direction.pyStr))
  else
    let i := candle_index.toNat
    let adjustment : ℚ := 1.0 * direction.toRat
    let column_name := pyCapitalize value_type
    match dfAt df i column_name with
    | none => none
    | some current_value =>
      let new_value := current_value + adjustment
      let clamped : Option ℚ :=
        if value_type = "high" then
          match dfAt df i "Open", dfAt df i "Close", dfAt df i "Low" with
          | some o, some c, some l => some (max new_value (max o (max c l)))
          | _, _, _ => none
        else if value_type = "low" then
          match dfAt df i "Open", dfAt df i "Close", dfAt df i "High" with
          | some o, some c, some h => some (min new_value (min o (min c h)))
          | _, _, _ => none
        else some new_value
      match clamped with
      | none => none
      | some v => (dfSet df i column_name v).map fun d => (d, none)

/-- Value of the named OHLC field of a candle `(o, h, l, c)`. -/
def readField (o h l c : ℚ) (f : String) : ℚ :=
  if f = "open" then o else if f = "high" then h else if f = "low" then l else c

/-- Candle `(o, h, l, c)` with the named field replaced by `v`. -/
def writeField (o h l c : ℚ) (f : String) (v : ℚ) : ℚ × ℚ × ℚ × ℚ :=
  if f = "open" then (v, h, l, c)
  else if f = "high" then (o, v, l, c)
  else if f = "low" then (o, h, v, c)
  else (o, h, l, v)

/-- Row-level effect of `apply_candle_adjustment` on the targeted candle:
primary write of `current + 1.0 × d`, then the High extension, then the Low
extension. -/
def adjCandle (o h l c : ℚ) (f : String) (d : ℚ) : ℚ × ℚ × ℚ × ℚ :=
  let v := readField o h l c f + 1.0 * d
  let t := writeField o h l c f v
  let newHigh := if max t.1 t.2.2.2 > t.2.1 then max t.1 t.2.2.2 else t.2.1
  let newLow := if min t.1 t.2.2.2 < t.2.2.1 then min t.1 t.2.2.2 else t.2.2.1
  (t.1, newHigh, newLow, t.2.2.2)

/-- Whether the constraint pass of `apply_candle_adjustment` would modify
High or Low after the primary write (the boundary-extension case). -/
def adjustmentExtends (o h l c : ℚ) (f : String) (d : ℚ) : Bool :=
  let v := readField o h l c f + 1.0 * d
  let t := writeField o h l c f v
  decide (max t.1 t.2.2.2 > t.2.1) || decide (min t.1 t.2.2.2 < t.2.2.1)

/-- `n`-fold repetition of a unit adjustment of field `f` of candle 0; stops
with `none` if any step errors.  (Scenario glue: callers invoke the engine
repeatedly for larger moves.) -/
def adjustIter (df : DataFrame) (f : String) : ℕ → Option DataFrame
  | 0 => some df
  | n + 1 => (adjustIter df f n).bind fun d =>
      (apply_candle_adjustment d 0 f (.pint 1)).bind fun p =>
        match p.2 with
        | none => some p.1
        | some _ => none

/-! Chart rendering (`chart.py`). -/

def CHART_HEIGHT : ℕ := 10

def CANDLE_WIDTH : ℕ := 3

def BULLISH_BODY : Char := '^'

def BEARISH_BODY : Char := 'v'

def WICK : Char := '|'

def EMPTY : Char := ' '

/-- Python `int(x)` on a float: truncation toward zero. -/
def pyTrunc (q : ℚ) : ℤ := if 0 ≤ q then ⌊q⌋ else ⌈q⌉

/-- `create_price_to_row_mapper`: for flat data every price maps to the
middle row; otherwise normalize, flip, scale by `chart_height - 1`,
truncate with `int(...)` and clamp to `[0, chart_height - 1]`. -/
def create_price_to_row_mapper (min_price max_price : ℚ) (chart_height : ℕ) : ℚ → ℤ :=
  if max_price = min_price then fun _ => (chart_height : ℤ) / 2
  else fun price =>
    let normalized_price := (price - min_price) / (max_price - min_price)
    let row := pyTrunc ((1 - normalized_price) * ((chart_height : ℚ) - 1))
    max 0 (min ((chart_height : ℤ) - 1) row)

/-- The price-to-row mapping exactly as the specification words it:
`clamp(round((1 − (price − min_price) / (max_price − min_price)) × (H − 1)), 0, H − 1)`.
Stated only to be compared against `create_price_to_row_mapper`. -/
def spec_price_to_row (min_price max_price : ℚ) (chart_height : ℕ) (price : ℚ) : ℤ :=
  max 0 (min ((chart_height : ℤ) - 1)
    (round ((1 - (price - min_price) / (max_price - min_price)) * ((chart_height : ℚ) - 1))))

/-- `Series.min` of a column. -/
def seriesMin : List ℚ → Option ℚ
  | [] => none
  | v :: vs => some (vs.foldl min v)

/-- `Series.max` of a column. -/
def seriesMax : List ℚ → Option ℚ
  | [] => none
  | v :: vs => some (vs.foldl max v)

/-- Python `sep.join(items)`. -/
def joinWith (sep : String) : List String → String
  | [] => ""
  | [x] => x
  | x :: xs => x ++ sep ++ joinWith sep xs

/-- Python `str(list_of_strings)`, e.g. `['High', 'Low']`. -/
def pyStrList (l : List String) : String :=
  "[" ++ joinWith ", " (l.map fun s => "'" ++ s ++ "'") ++ "]"

def required_columns : List String := ["Open", "High", "Low", "Close"]

/-- `validate_ohlc_dataframe`: reject an empty frame, then any frame missing
one of the four OHLC columns. -/
def validate_ohlc_dataframe (df : DataFrame) : Bool × String :=
  if dfLen df = 0 then (false, "No data to render.")
  else
    let missing_columns := required_columns.filter fun col => ¬ (colNames df).contains col
    if missing_columns ≠ [] then
      (false, "Missing required columns: " ++ pyStrList missing_columns)
    else (true, "")

/-- `create_empty_chart_grid`. -/
def create_empty_chart_grid (num_candles : ℕ) : List (List Char) :=
  List.replicate CHART_HEIGHT (List.replicate (num_candles * CANDLE_WIDTH) EMPTY)

/-- `grid[r][c] = ch` (indices produced by the renderer are always in
range). -/
def setCell (grid : List (List Char)) (r c : ℕ) (ch : Char) : List (List Char) :=
  match grid.get? r with
  | none => grid
  | some row => grid.set r (row.set c ch)

/-- Fill rows `a..b` inclusive of column `col` with `ch` (shared body of
`draw_wick_on_grid` and `draw_body_on_grid`). -/
def drawVertical (grid : List (List Char)) (col a b : ℕ) (ch : Char) : List (List Char) :=
  (List.range' a (b + 1 - a)).foldl (fun g r => setCell g r col ch) grid

/-- `determine_candle_character`. -/
def determine_candle_character (open_price close_price : ℚ) : Char :=
  if close_price ≥ open_price then BULLISH_BODY else BEARISH_BODY

/-- `draw_single_candle`: wick from `row(high)` to `row(low)`, then the body
from `row(open)` to `row(close)` drawn over it. -/
def draw_single_candle (grid : List (List Char)) (candle_index : ℕ)
    (ohlc : ℚ × ℚ × ℚ × ℚ) (price_to_row : ℚ → ℤ) : List (List Char) :=
  let col := candle_index * CANDLE_WIDTH + 1
  let open_row := (price_to_row ohlc.1).toNat
  let high_row := (price_to_row ohlc.2.1).toNat
  let low_row := (price_to_row ohlc.2.2.1).toNat
  let close_row := (price_to_row ohlc.2.2.2).toNat
  let g1 := drawVertical grid col (min high_row low_row) (max high_row low_row) WICK
  let body_char := determine_candle_character ohlc.1 ohlc.2.2.2
  drawVertical g1 col (min open_row close_row) (max open_row close_row) body_char

/-- `grid_to_string`. -/
def grid_to_string (grid : List (List Char)) : String :=
  joinWith "\n" (grid.map fun row => String.mk row)

/-- `render_chart`: validation, flat-range check, then one candle per row.
`none` models an exception (unreachable on well-formed frames). -/
def render_chart (df : DataFrame) : Option String :=
  match validate_ohlc_dataframe df with
  | (false, error_message) => some error_message
  | (true, _) =>
    match getCol df "Low", getCol df "High" with
    | some lows, some highs =>
      match seriesMin lows, seriesMax highs with
      | some min_price, some max_price =>
        if max_price = min_price then
          some "Price range is flat, cannot render meaningful chart."
        else
          let price_to_row := create_price_to_row_mapper min_price max_price CHART_HEIGHT
          let grid0 := create_empty_chart_grid (dfLen df)
          ((List.range (dfLen df)).foldlM (fun g i =>
            match dfAt df i "Open", dfAt df i "High", dfAt df i "Low", dfAt df i "Close" with
            | some o, some h, some l, some c =>
              some (draw_single_candle g i (o, h, l, c) price_to_row)
            | _, _, _, _ => none) grid0).map grid_to_string
      | _, _ => none
    | _, _ => none

/-! Buffer codec (`state.py`): serialisation of a DataFrame back to source
text, and a model of parsing it out again. -/

/-- Decimal digits of `n`, most significant first, as characters; `str(0)`
is `"0"`. -/
def natChars (n : ℕ) : List Char :=
  if n = 0 then ['0'] else (Nat.digits 10 n).reverse.map fun d => Char.ofNat (48 + d)

/-- Python `str` of an integer. -/
def intChars (n : ℤ) : List Char :=
  (if n < 0 then ['-'] else []) ++ natChars n.natAbs

/-- Round a rational to the nearest integer, ties to even (decimal
half-even rounding; the bit-level behaviour of binary floats under
`"%.1f"` is not modelled). -/
def roundHalfEven (q : ℚ) : ℤ :=
  if q - ⌊q⌋ < 1 / 2 then ⌊q⌋
  else if 1 / 2 < q - ⌊q⌋ then ⌊q⌋ + 1
  else if Even ⌊q⌋ then ⌊q⌋ else ⌊q⌋ + 1

/-- `f"{val:.1f}"`: exactly one decimal digit. -/
def format1Chars (q : ℚ) : List Char :=
  let n := roundHalfEven (q * 10)
  (if n < 0 then ['-'] else []) ++ natChars (n.natAbs / 10) ++ ['.'] ++ natChars (n.natAbs % 10)

/-- Per-value formatting of `dataframe_to_code`: `str(int(val))` when
`val == int(val)`, else `f"{val:.1f}"`. -/
def numChars (q : ℚ) : List Char :=
  if q.den = 1 then intChars q.num else format1Chars q

/-- Concatenate character lists with a separator (`sep.join` at character
level). -/
def joinSep (sep : List Char) : List (List Char) → List Char
  | [] => []
  | [x] => x
  | x :: xs => x ++ sep ++ joinSep sep xs

/-- One generated column line: `    'COL': [v1, v2, ...]` plus a trailing
comma on all but the last column. -/
def colLineChars (col : String) (vals : List ℚ) (comma : Bool) : List Char :=
  "    '".data ++ col.data ++ "': [".data ++ joinSep [',', ' '] (vals.map numChars)
    ++ [']'] ++ (if comma then [','] else [])

/-- The column lines of `dataframe_to_code`, carrying the running index of
the `enumerate` loop (`comma = i < n - 1`). -/
def codeLines (n : ℕ) : ℕ → DataFrame → List (List Char)
  | _, [] => []
  | i, p :: rest => colLineChars p.1 p.2 (i < n - 1) :: codeLines n (i + 1) rest

/-- Character-level body of `dataframe_to_code`: header line, one line per
column, closing `})`, joined by newlines. -/
def codeChars (df : DataFrame) (variable_name : String) : List Char :=
  joinSep ['\n'] ((variable_name.data ++ " = pd.DataFrame(\x7b".data)
    :: codeLines df.length 0 df ++ [['\x7d', ')']])

/-- `dataframe_to_code`: render a DataFrame as the table-constructor source
fragment. -/
def dataframe_to_code (df : DataFrame) (variable_name : String) : String :=
  String.mk (codeChars df variable_name)

/-- Consume an exact prefix of a character stream. -/
def dropPre : List Char → List Char → Option (List Char)
  | [], cs => some cs
  | _ :: _, [] => none
  | p :: ps, c :: cs => if c = p then dropPre ps cs else none

/-- Scan up to (and consume) the first occurrence of `stop`, returning the
characters before it and the remainder after it. -/
def scanTo (stop : Char) : List Char → Option (List Char × List Char)
  | [] => none
  | c :: cs =>
    if c = stop then some ([], cs)
    else (scanTo stop cs).map fun p => (c :: p.1, p.2)

/-- Split a character list on commas. -/
def splitComma : List Char → List (List Char)
  | [] => [[]]
  | c :: cs =>
    if c = ',' then [] :: splitComma cs
    else match splitComma cs with
      | [] => [[c]]
      | g :: gs => (c :: g) :: gs

def digitVal (c : Char) : ℕ := c.toNat - 48

/-- Numeric value of a most-significant-first digit string. -/
def readNat (ds : List Char) : ℕ := Nat.ofDigits 10 ((ds.map digitVal).reverse)

/-- Read a Python numeric literal: optional minus, digits, optional
fractional part. -/
def readNum (cs : List Char) : Option ℚ :=
  let neg : Bool × List Char :=
    if cs.head? = some '-' then (true, cs.tail) else (false, cs)
  let ip := neg.2.takeWhile Char.isDigit
  let rest := neg.2.dropWhile Char.isDigit
  if ip = [] then none
  else
    let sgn : ℚ := if neg.1 then -1 else 1
    match rest with
    | [] => some (sgn * (readNat ip : ℚ))
    | '.' :: frac =>
      if frac ≠ [] ∧ frac.all Char.isDigit then
        some (sgn * ((readNat ip : ℚ) + (readNat frac : ℚ) / ((10 : ℚ) ^ frac.length)))
      else none
    | _ => none

/-- Read the comma-separated values of a literal list (empty list allowed). -/
def readVals (inner : List Char) : Option (List ℚ) :=
  if inner = [] then some []
  else (splitComma inner).mapM fun item => readNum (item.dropWhile (· = ' '))

/-- Read one generated column line (including its terminating newline),
returning the column and the remaining stream. -/
def readColumn (cs : List Char) : Option ((String × List ℚ) × List Char) := do
  let cs1 ← dropPre "    '".data cs
  let q ← scanTo '\'' cs1
  let cs3 ← dropPre ": [".data (q.2)
  let b ← scanTo ']' cs3
  let vals ← readVals b.1
  let cs5 := if b.2.head? = some ',' then b.2.tail else b.2
  let cs6 ← dropPre ['\n'] cs5
  some ((String.mk q.1, vals), cs6)

/-- Read column lines until the closing `})` line. -/
def readColumns : ℕ → List Char → Option DataFrame
  | fuel, cs =>
    if cs = ['\x7d', ')'] then some []
    else match fuel with
      | 0 => none
      | fuel + 1 => do
        let c ← readColumn cs
        let cols ← readColumns fuel c.2
        some (c.1 :: cols)

/-- Modelled from the spec: `parse` must "execute/evaluate the buffer text
in an isolated evaluation context exposing only data-construction
primitives" and locate the named variable in the resulting bindings.  The
Python implementation delegates this to the host interpreter's `exec`,
which is outside the repository; this model evaluates exactly the
table-constructor sublanguage that `dataframe_to_code` emits — an
assignment of a `pd.DataFrame({...})` literal to `variable_name` — and
enforces the constructor's equal-column-length requirement. -/
def evalTableConstructor (buffer_content variable_name : String) : Option DataFrame := do
  let cs ← dropPre (variable_name ++ " = pd.DataFrame(\x7b\n").data buffer_content.data
  let df ← readColumns cs.length cs
  if df.all fun col => col.2.length = dfLen df then some df else none

/-- `ParseResult`. -/
structure ParseResult where
  success : Bool
  dataframe : Option DataFrame
  error_message : Option String
deriving DecidableEq, Repr

/-- `parse_dataframe_from_buffer`: evaluate the buffer (see
`evalTableConstructor`), then validate the four required columns and return
a defensive copy.  Evaluation failures surface as an error result (the
interpreter-produced message text is not modelled). -/
def parse_dataframe_from_buffer (buffer_content variable_name : String) : ParseResult :=
  match evalTableConstructor buffer_content variable_name with
  | none => ⟨false, none, some ("Error parsing buffer: could not evaluate '"
      ++ variable_name ++ "'")⟩
  | some df =>
    let missing := required_columns.filter fun col => ¬ (colNames df).contains col
    if missing ≠ [] then
      ⟨false, none, some ("DataFrame missing required columns: " ++ pyStrList missing)⟩
    else ⟨true, some df, none⟩

/-- `line.count(ch)`. -/
def countChar (s : String) (ch : Char) : ℤ := ((s.data.filter fun c => c = ch).length : ℤ)

/-- Python `pat in line` (substring containment). -/
def containsSubstr (line pat : String) : Bool :=
  (List.range (line.data.length + 1)).any fun i =>
    decide ((line.data.drop i).take pat.data.length = pat.data)

/-- The balanced-parenthesis walk of `find_dataframe_definition`: advance
while the running count is positive and lines remain. -/
def bracketScan : List String → ℤ → ℕ → ℕ
  | [], _, e => e
  | l :: rest, count, e =>
    if count > 0 then bracketScan rest (count + countChar l '(' - countChar l ')') (e + 1)
    else e

/-- `find_dataframe_definition`. -/
def find_dataframe_definition (buffer_content variable_name : String) : Option (ℕ × ℕ) :=
  let lines := buffer_content.splitOn "\n"
  let pat := variable_name ++ " = pd.DataFrame("
  match lines.findIdx? fun line => containsSubstr line pat with
  | none => none
  | some i =>
    let line := lines.getD i ""
    let end_line := bracketScan (lines.drop (i + 1)) (countChar line '(' - countChar line ')') i
    some (i, end_line)

/-- `update_buffer_with_dataframe`: splice the re-serialised definition over
the located span, or append it after a blank line. -/
def update_buffer_with_dataframe (buffer_content variable_name : String)
    (df : DataFrame) : String :=
  let lines := buffer_content.splitOn "\n"
  match find_dataframe_definition buffer_content variable_name with
  | none => buffer_content ++ "\n\n" ++ dataframe_to_code df variable_name
  | some se =>
    let new_lines := (dataframe_to_code df variable_name).splitOn "\n"
    joinWith "\n" (lines.take se.1 ++ new_lines ++ lines.drop (se.2 + 1))

/-! Session state (`state.py`). -/

/-- `EditorState` (cursor components are Python values, ints in practice). -/
structure EditorState where
  buffer_content : String
  variable_name : String
  file_path : String
  cursor_position : PVal × PVal
deriving DecidableEq, Repr

/-- `EditorCommand`: a command type and its parameter dictionary. -/
structure EditorCommand where
  command_type : String
  parameters : List (String × PVal)
deriving DecidableEq, Repr

/-- `parameters[k]`; `none` models the KeyError. -/
def lookupParam (ps : List (String × PVal)) (k : String) : Option PVal :=
  (ps.find? fun p => p.1 = k).map fun p => p.2

/-- `create_editor_state`. -/
def create_editor_state (buffer_content variable_name file_path : String) : EditorState :=
  ⟨buffer_content, variable_name, file_path, (.pint 0, .pint 0)⟩

/-- `create_candle_adjustment_command`. -/
def create_candle_adjustment_command (candle_index : ℤ) (value_type : String)
    (direction : PVal) : EditorCommand :=
  ⟨"adjust_candle", [("candle_index", .pint candle_index), ("value_type", .pstr value_type),
    ("direction", direction)]⟩

/-- `create_cursor_movement_command`. -/
def create_cursor_movement_command (row col : ℤ) : EditorCommand :=
  ⟨"move_cursor", [("row", .pint row), ("col", .pint col)]⟩

/-- `handle_editor_command`: `adjust_candle` re-parses the buffer, runs the
constraint engine and splices the result back; `move_cursor` is a pure
cursor update; anything else is an error result.  `none` models an
exception (missing parameter key or an engine exception). -/
def handle_editor_command (state : EditorState) (command : EditorCommand) :
    Option (EditorState × Option String) :=
  if command.command_type = "adjust_candle" then
    match parse_dataframe_from_buffer state.buffer_content state.variable_name with
    | ⟨false, _, err⟩ => some (state, err)
    | ⟨true, none, _⟩ => none
    | ⟨true, some df, _⟩ =>
      match lookupParam command.parameters "candle_index",
            lookupParam command.parameters "value_type",
            lookupParam command.parameters "direction" with
      | some (.pint ci), some (.pstr vt), some dir =>
        match apply_candle_adjustment df ci vt dir with
        | none => none
        | some (_, some msg) => some (state, some msg)
        | some (new_df, none) =>
          let new_buffer := update_buffer_with_dataframe state.buffer_content
            state.variable_name new_df
          some (⟨new_buffer, state.variable_name, state.file_path, state.cursor_position⟩, none)
      | _, _, _ => none
  else if command.command_type = "move_cursor" then
    match lookupParam command.parameters "row", lookupParam command.parameters "col" with
    | some r, some c =>
      some (⟨state.buffer_content, state.variable_name, state.file_path, (r, c)⟩, none)
    | _, _ => none
  else some (state, some ("Unknown command type: " ++ command.command_type))

/-! The Batteries rational-number operations are `@[irreducible]`, which
blocks `decide` from evaluating concrete datasets; restore the default
reducibility inside this development. -/

attribute [local semireducible] Rat.add Rat.mul Rat.sub Rat.ofScientific Rat.inv

/-! Lemmas about list updates. -/

theorem list_get_set_same {α : Type} (l : List α) (i : ℕ) (a : α) (h : i < l.length) :
    (l.set i a).get? i = some a := by
  induction l generalizing i with
  | nil => simp at h
  | cons x xs ih =>
    cases i with
    | zero => rfl
    | succ n => simpa using ih n (by simpa using h)

theorem list_get_set_other {α : Type} (l : List α) (i j : ℕ) (a : α) (h : i ≠ j) :
    (l.set i a).get? j = l.get? j := by
  induction l generalizing i j with
  | nil => rfl
  | cons x xs ih =>
    cases i with
    | zero =>
      cases j with
      | zero => exact absurd rfl h
      | succ m => rfl
    | succ n =>
      cases j with
      | zero => rfl
      | succ m => simpa using ih n m fun e => h (by rw [e])

theorem list_set_id {α : Type} (l : List α) (i : ℕ) (a : α) (h : l.get? i = some a) :
    l.set i a = l := by
  induction l generalizing i with
  | nil => simp at h
  | cons x xs ih =>
    cases i with
    | zero =>
      simp only [List.get?] at h
      injection h with h
      simp [h]
    | succ n =>
      simp only [List.get?] at h
      simp [ih n h]

/-! Lemmas about the DataFrame accessors. -/

theorem getCol_dfSet_self (df df' : DataFrame) (i : ℕ) (c : String) (v : ℚ)
    (h : dfSet df i c v = some df') :
    ∃ vs, getCol df c = some vs ∧ i < vs.length ∧ getCol df' c = some (vs.set i v) := by
  induction df generalizing df' with
  | nil => simp [dfSet] at h
  | cons p rest ih =>
    obtain ⟨n, vs⟩ := p
    by_cases hn : n = c
    · subst hn
      simp only [dfSet, if_pos rfl] at h
      by_cases hi : i < vs.length
      · rw [if_pos hi] at h
        injection h with h
        subst h
        exact ⟨vs, by simp [getCol], hi, by simp [getCol]⟩
      · rw [if_neg hi] at h
        exact absurd h (by simp)
    · simp only [dfSet, if_neg hn] at h
      obtain ⟨d', hd', hmap⟩ := Option.map_eq_some'.mp h
      obtain ⟨vs', h1, h2, h3⟩ := ih d' hd'
      subst hmap
      exact ⟨vs', by simpa [getCol, hn] using h1, h2, by simpa [getCol, hn] using h3⟩

theorem getCol_dfSet_ne (df df' : DataFrame) (i : ℕ) (c c' : String) (v : ℚ)
    (h : dfSet df i c v = some df') (hc : c' ≠ c) :
    getCol df' c' = getCol df c' := by
  induction df generalizing df' with
  | nil => simp [dfSet] at h
  | cons p rest ih =>
    obtain ⟨n, vs⟩ := p
    by_cases hn : n = c
    · subst hn
      simp only [dfSet, if_pos rfl] at h
      by_cases hi : i < vs.length
      · rw [if_pos hi] at h
        injection h with h
        subst h
        simp [getCol, Ne.symm hc]
      · rw [if_neg hi] at h
        exact absurd h (by simp)
    · simp only [dfSet, if_neg hn] at h
      obtain ⟨d', hd', hmap⟩ := Option.map_eq_some'.mp h
      subst hmap
      by_cases hn' : n = c'
      · simp [getCol, hn']
      · simp [getCol, hn', ih d' hd']

theorem colNames_dfSet (df df' : DataFrame) (i : ℕ) (c : String) (v : ℚ)
    (h : dfSet df i c v = some df') : colNames df' = colNames df := by
  induction df generalizing df' with
  | nil => simp [dfSet] at h
  | cons p rest ih =>
    obtain ⟨n, vs⟩ := p
    by_cases hn : n = c
    · subst hn
      simp only [dfSet, if_pos rfl] at h
      by_cases hi : i < vs.length
      · rw [if_pos hi] at h
        injection h with h
        subst h
        simp [colNames]
      · rw [if_neg hi] at h
        exact absurd h (by simp)
    · simp only [dfSet, if_neg hn] at h
      obtain ⟨d', hd', hmap⟩ := Option.map_eq_some'.mp h
      subst hmap
      simp [colNames] at ih ⊢
      exact ih d' hd'

theorem dfLen_dfSet (df df' : DataFrame) (i : ℕ) (c : String) (v : ℚ)
    (h : dfSet df i c v = some df') : dfLen df' = dfLen df := by
  induction df generalizing df' with
  | nil => simp [dfSet] at h
  | cons p rest ih =>
    obtain ⟨n, vs⟩ := p
    by_cases hn : n = c
    · subst hn
      simp only [dfSet, if_pos rfl] at h
      by_cases hi : i < vs.length
      · rw [if_pos hi] at h
        injection h with h
        subst h
        simp [dfLen]
      · rw [if_neg hi] at h
        exact absurd h (by simp)
    · simp only [dfSet, if_neg hn] at h
      obtain ⟨d', _, hmap⟩ := Option.map_eq_some'.mp h
      subst hmap
      simp [dfLen]

theorem dfSet_some (df : DataFrame) (i : ℕ) (c : String) (vs : List ℚ)
    (h : getCol df c = some vs) (hi : i < vs.length) (v : ℚ) :
    ∃ df', dfSet df i c v = some df' := by
  induction df with
  | nil => simp [getCol] at h
  | cons p rest ih =>
    obtain ⟨n, ws⟩ := p
    by_cases hn : n = c
    · subst hn
      simp only [getCol, if_pos rfl] at h
      injection h with h
      subst h
      exact ⟨(n, ws.set i v) :: rest, by simp [dfSet, hi]⟩
    · simp only [getCol, if_neg hn] at h
      obtain ⟨d', hd'⟩ := ih h
      exact ⟨(n, ws) :: d', by simp [dfSet, hn, hd']⟩

theorem dfAt_parts (df : DataFrame) (i : ℕ) (c : String) (w : ℚ)
    (h : dfAt df i c = some w) :
    ∃ vs, getCol df c = some vs ∧ vs.get? i = some w ∧ i < vs.length := by
  unfold dfAt at h
  obtain ⟨vs, hvs, hget⟩ := Option.bind_eq_some.mp h
  exact ⟨vs, hvs, hget, (List.get?_eq_some.mp hget).1⟩

theorem dfSet_some_of_dfAt (df : DataFrame) (i : ℕ) (c : String) (w v : ℚ)
    (h : dfAt df i c = some w) : ∃ df', dfSet df i c v = some df' := by
  obtain ⟨vs, hvs, _, hlen⟩ := dfAt_parts df i c w h
  exact dfSet_some df i c vs hvs hlen v

theorem dfAt_dfSet_self (df df' : DataFrame) (i : ℕ) (c : String) (v : ℚ)
    (h : dfSet df i c v = some df') : dfAt df' i c = some v := by
  obtain ⟨vs, _, hlen, hcol⟩ := getCol_dfSet_self df df' i c v h
  unfold dfAt
  rw [hcol]
  exact list_get_set_same vs i v hlen

theorem dfAt_dfSet_row_ne (df df' : DataFrame) (i j : ℕ) (c c' : String) (v : ℚ)
    (h : dfSet df i c v = some df') (hj : j ≠ i) :
    dfAt df' j c' = dfAt df j c' := by
  by_cases hc : c' = c
  · subst hc
    obtain ⟨vs, hvs, _, hcol⟩ := getCol_dfSet_self df df' i c' v h
    unfold dfAt
    rw [hcol, hvs]
    simp only [Option.bind_eq_bind, Option.some_bind]
    exact list_get_set_other vs i j v fun e => hj e.symm
  · unfold dfAt
    rw [getCol_dfSet_ne df df' i c c' v h hc]

theorem dfAt_dfSet_col_ne (df df' : DataFrame) (i j : ℕ) (c c' : String) (v : ℚ)
    (h : dfSet df i c v = some df') (hc : c' ≠ c) :
    dfAt df' j c' = dfAt df j c' := by
  unfold dfAt
  rw [getCol_dfSet_ne df df' i c c' v h hc]

theorem dfSet_id (df : DataFrame) (i : ℕ) (c : String) (v : ℚ)
    (h : dfAt df i c = some v) : dfSet df i c v = some df := by
  induction df with
  | nil => simp [dfAt, getCol] at h
  | cons p rest ih =>
    obtain ⟨n, vs⟩ := p
    by_cases hn : n = c
    · subst hn
      simp only [dfAt, getCol, if_pos rfl, Option.some_bind] at h
      have hlen : i < vs.length := (List.get?_eq_some.mp h).1
      simp [dfSet, hlen, list_set_id vs i v h]
    · have h' : dfAt rest i c = some v := by
        simpa [dfAt, getCol, hn] using h
      simp [dfSet, hn, ih h']

theorem dfSet_dfSet (df df1 : DataFrame) (i : ℕ) (c : String) (v w : ℚ)
    (h : dfSet df i c v = some df1) : dfSet df1 i c w = dfSet df i c w := by
  induction df generalizing df1 with
  | nil => simp [dfSet] at h
  | cons p rest ih =>
    obtain ⟨n, vs⟩ := p
    by_cases hn : n = c
    · subst hn
      simp only [dfSet, if_pos rfl] at h
      by_cases hi : i < vs.length
      · rw [if_pos hi] at h
        injection h with h
        subst h
        simp [dfSet, hi, List.set_set]
      · rw [if_neg hi] at h
        exact absurd h (by simp)
    · simp only [dfSet, if_neg hn] at h
      obtain ⟨d', hd', hmap⟩ := Option.map_eq_some'.mp h
      subst hmap
      simp [dfSet, hn, ih d' hd']

/-! The success path of `apply_candle_adjustment`: a validated adjustment
performs exactly three writes (field, High, Low) on the targeted row, with
the values described by `adjCandle`. -/

theorem apply_run (df : DataFrame) (i : ℕ) (f : String) (dv : PVal) (o h l c : ℚ)
    (hf : f = "open" ∨ f = "high" ∨ f = "low" ∨ f = "close")
    (hnum : dv.isNumber = true)
    (hi : i < dfLen df)
    (ho : dfAt df i "Open" = some o) (hh : dfAt df i "High" = some h)
    (hl : dfAt df i "Low" = some l) (hc : dfAt df i "Close" = some c) :
    ∃ df1 df2 df3,
      dfSet df i (pyCapitalize f) (readField o h l c f + 1.0 * dv.toRat) = some df1 ∧
      dfSet df1 i "High" (adjCandle o h l c f dv.toRat).2.1 = some df2 ∧
      dfSet df2 i "Low" (adjCandle o h l c f dv.toRat).2.2.1 = some df3 ∧
      apply_candle_adjustment df i f dv = some (df3, none) := by
  have hval : ¬(((i : ℕ) : ℤ) < 0 ∨ (dfLen df : ℤ) ≤ ((i : ℕ) : ℤ)) := by
    push_neg
    exact ⟨Int.natCast_nonneg i, by exact_mod_cast hi⟩
  rcases hf with rfl | rfl | rfl | rfl
  · -- field = "open"
    have hcap : pyCapitalize "open" = "Open" := by decide
    have hread : readField o h l c "open" = o := by simp [readField]
    obtain ⟨df1, hdf1⟩ := dfSet_some_of_dfAt df i "Open" o (o + 1.0 * dv.toRat) ho
    have hO1 : dfAt df1 i "Open" = some (o + 1.0 * dv.toRat) :=
      dfAt_dfSet_self df df1 i "Open" _ hdf1
    have hC1 : dfAt df1 i "Close" = some c := by
      rw [dfAt_dfSet_col_ne df df1 i i "Open" "Close" _ hdf1 (by decide)]; exact hc
    have hH1 : dfAt df1 i "High" = some h := by
      rw [dfAt_dfSet_col_ne df df1 i i "Open" "High" _ hdf1 (by decide)]; exact hh
    have hL1 : dfAt df1 i "Low" = some l := by
      rw [dfAt_dfSet_col_ne df df1 i i "Open" "Low" _ hdf1 (by decide)]; exact hl
    obtain ⟨df2, hdf2⟩ := dfSet_some_of_dfAt df1 i "High" h
      (if max (o + 1.0 * dv.toRat) c > h then max (o + 1.0 * dv.toRat) c else h) hH1
    have hL2 : dfAt df2 i "Low" = some l := by
      rw [dfAt_dfSet_col_ne df1 df2 i i "High" "Low" _ hdf2 (by decide)]; exact hL1
    obtain ⟨df3, hdf3⟩ := dfSet_some_of_dfAt df2 i "Low" l
      (if min (o + 1.0 * dv.toRat) c < l then min (o + 1.0 * dv.toRat) c else l) hL2
    refine ⟨df1, df2, df3, by rw [hcap, hread]; exact hdf1, ?_, ?_, ?_⟩
    · simpa [adjCandle, readField, writeField] using hdf2
    · simpa [adjCandle, readField, writeField] using hdf3
    · rw [apply_candle_adjustment, if_neg hval,
        if_neg (by decide : ¬¬("open" ∈ (["high", "low", "open", "close"] : List String))),
        if_neg (not_not_intro hnum)]
      simp only [Int.toNat_natCast, hcap, ho, Option.some_bind, hdf1, hO1, hC1, hH1, hL1,
        hdf2, hL2, hdf3, Option.map_some']
  · -- field = "high"
    have hcap : pyCapitalize "high" = "High" := by decide
    have hread : readField o h l c "high" = h := by simp [readField]
    obtain ⟨df1, hdf1⟩ := dfSet_some_of_dfAt df i "High" h (h + 1.0 * dv.toRat) hh
    have hH1 : dfAt df1 i "High" = some (h + 1.0 * dv.toRat) :=
      dfAt_dfSet_self df df1 i "High" _ hdf1
    have hO1 : dfAt df1 i "Open" = some o := by
      rw [dfAt_dfSet_col_ne df df1 i i "High" "Open" _ hdf1 (by decide)]; exact ho
    have hC1 : dfAt df1 i "Close" = some c := by
      rw [dfAt_dfSet_col_ne df df1 i i "High" "Close" _ hdf1 (by decide)]; exact hc
    have hL1 : dfAt df1 i "Low" = some l := by
      rw [dfAt_dfSet_col_ne df df1 i i "High" "Low" _ hdf1 (by decide)]; exact hl
    obtain ⟨df2, hdf2⟩ := dfSet_some_of_dfAt df1 i "High" (h + 1.0 * dv.toRat)
      (if max o c > h + 1.0 * dv.toRat then max o c else h + 1.0 * dv.toRat) hH1
    have hL2 : dfAt df2 i "Low" = some l := by
      rw [dfAt_dfSet_col_ne df1 df2 i i "High" "Low" _ hdf2 (by decide)]; exact hL1
    obtain ⟨df3, hdf3⟩ := dfSet_some_of_dfAt df2 i "Low" l
      (if min o c < l then min o c else l) hL2
    refine ⟨df1, df2, df3, by rw [hcap, hread]; exact hdf1, ?_, ?_, ?_⟩
    · simpa [adjCandle, readField, writeField] using hdf2
    · simpa [adjCandle, readField, writeField] using hdf3
    · rw [apply_candle_adjustment, if_neg hval,
        if_neg (by decide : ¬¬("high" ∈ (["high", "low", "open", "close"] : List String))),
        if_neg (not_not_intro hnum)]
      simp only [Int.toNat_natCast, hcap, hh, Option.some_bind, hdf1, hO1, hC1, hH1, hL1,
        hdf2, hL2, hdf3, Option.map_some']
  · -- field = "low"
    have hcap : pyCapitalize "low" = "Low" := by decide
    have hread : readField o h l c "low" = l := by simp [readField]
    obtain ⟨df1, hdf1⟩ := dfSet_some_of_dfAt df i "Low" l (l + 1.0 * dv.toRat) hl
    have hL1 : dfAt df1 i "Low" = some (l + 1.0 * dv.toRat) :=
      dfAt_dfSet_self df df1 i "Low" _ hdf1
    have hO1 : dfAt df1 i "Open" = some o := by
      rw [dfAt_dfSet_col_ne df df1 i i "Low" "Open" _ hdf1 (by decide)]; exact ho
    have hC1 : dfAt df1 i "Close" = some c := by
      rw [dfAt_dfSet_col_ne df df1 i i "Low" "Close" _ hdf1 (by decide)]; exact hc
    have hH1 : dfAt df1 i "High" = some h := by
      rw [dfAt_dfSet_col_ne df df1 i i "Low" "High" _ hdf1 (by decide)]; exact hh
    obtain ⟨df2, hdf2⟩ := dfSet_some_of_dfAt df1 i "High" h
      (if max o c > h then max o c else h) hH1
    have hL2 : dfAt df2 i "Low" = some (l + 1.0 * dv.toRat) := by
      rw [dfAt_dfSet_col_ne df1 df2 i i "High" "Low" _ hdf2 (by decide)]; exact hL1
    obtain ⟨df3, hdf3⟩ := dfSet_some_of_dfAt df2 i "Low" (l + 1.0 * dv.toRat)
      (if min o c < l + 1.0 * dv.toRat then min o c else l + 1.0 * dv.toRat) hL2
    refine ⟨df1, df2, df3, by rw [hcap, hread]; exact hdf1, ?_, ?_, ?_⟩
    · simpa [adjCandle, readField, writeField] using hdf2
    · simpa [adjCandle, readField, writeField] using hdf3
    · rw [apply_candle_adjustment, if_neg hval,
        if_neg (by decide : ¬¬("low" ∈ (["high", "low", "open", "close"] : List String))),
        if_neg (not_not_intro hnum)]
      simp only [Int.toNat_natCast, hcap, hl, Option.some_bind, hdf1, hO1, hC1, hH1, hL1,
        hdf2, hL2, hdf3, Option.map_some']
  · -- field = "close"
    have hcap : pyCapitalize "close" = "Close" := by decide
    have hread : readField o h l c "close" = c := by simp [readField]
    obtain ⟨df1, hdf1⟩ := dfSet_some_of_dfAt df i "Close" c (c + 1.0 * dv.toRat) hc
    have hC1 : dfAt df1 i "Close" = some (c + 1.0 * dv.toRat) :=
      dfAt_dfSet_self df df1 i "Close" _ hdf1
    have hO1 : dfAt df1 i "Open" = some o := by
      rw [dfAt_dfSet_col_ne df df1 i i "Close" "Open" _ hdf1 (by decide)]; exact ho
    have hH1 : dfAt df1 i "High" = some h := by
      rw [dfAt_dfSet_col_ne df df1 i i "Close" "High" _ hdf1 (by decide)]; exact hh
    have hL1 : dfAt df1 i "Low" = some l := by
      rw [dfAt_dfSet_col_ne df df1 i i "Close" "Low" _ hdf1 (by decide)]; exact hl
    obtain ⟨df2, hdf2⟩ := dfSet_some_of_dfAt df1 i "High" h
      (if max o (c + 1.0 * dv.toRat) > h then max o (c + 1.0 * dv.toRat) else h) hH1
    have hL2 : dfAt df2 i "Low" = some l := by
      rw [dfAt_dfSet_col_ne df1 df2 i i "High" "Low" _ hdf2 (by decide)]; exact hL1
    obtain ⟨df3, hdf3⟩ := dfSet_some_of_dfAt df2 i "Low" l
      (if min o (c + 1.0 * dv.toRat) < l then min o (c + 1.0 * dv.toRat) else l) hL2
    refine ⟨df1, df2, df3, by rw [hcap, hread]; exact hdf1, ?_, ?_, ?_⟩
    · simpa [adjCandle, readField, writeField] using hdf2
    · simpa [adjCandle, readField, writeField] using hdf3
    · rw [apply_candle_adjustment, if_neg hval,
        if_neg (by decide : ¬¬("close" ∈ (["high", "low", "open", "close"] : List String))),
        if_neg (not_not_intro hnum)]
      simp only [Int.toNat_natCast, hcap, hc, Option.some_bind, hdf1, hO1, hC1, hH1, hL1,
        hdf2, hL2, hdf3, Option.map_some']

/-- The candle produced by `adjCandle` always satisfies the OHLC invariant,
whatever the input. -/
theorem adjCandle_valid (o h l c : ℚ) (f : String) (d : ℚ) :
    max (adjCandle o h l c f d).1 (adjCandle o h l c f d).2.2.2 ≤ (adjCandle o h l c f d).2.1 ∧
    (adjCandle o h l c f d).2.2.1 ≤ min (adjCandle o h l c f d).1 (adjCandle o h l c f d).2.2.2 := by
  simp only [adjCandle]
  constructor
  · split
    · exact le_refl _
    · exact le_of_not_lt (by assumption)
  · split
    · exact le_refl _
    · exact le_of_not_lt (by assumption)

theorem rowValidB_congr (df df' : DataFrame) (j : ℕ)
    (h : ∀ c', dfAt df' j c' = dfAt df j c') : rowValidB df' j = rowValidB df j := by
  unfold rowValidB
  rw [h "Open", h "High", h "Low", h "Close"]

theorem rowValidB_elim (df : DataFrame) (i : ℕ) (hv : rowValidB df i = true) :
    ∃ o h l c, dfAt df i "Open" = some o ∧ dfAt df i "High" = some h ∧
      dfAt df i "Low" = some l ∧ dfAt df i "Close" = some c ∧
      max o c ≤ h ∧ l ≤ min o c := by
  unfold rowValidB at hv
  cases hO : dfAt df i "Open" <;> rw [hO] at hv
  · simp at hv
  cases hH : dfAt df i "High" <;> rw [hH] at hv
  · simp at hv
  cases hL : dfAt df i "Low" <;> rw [hL] at hv
  · simp at hv
  cases hC : dfAt df i "Close" <;> rw [hC] at hv
  · simp at hv
  simp only [Bool.and_eq_true, decide_eq_true_eq] at hv
  exact ⟨_, _, _, _, rfl, rfl, rfl, rfl, hv.1, hv.2⟩

theorem rowValidB_intro (df : DataFrame) (i : ℕ) (o h l c : ℚ)
    (ho : dfAt df i "Open" = some o) (hh : dfAt df i "High" = some h)
    (hl : dfAt df i "Low" = some l) (hc : dfAt df i "Close" = some c)
    (h1 : max o c ≤ h) (h2 : l ≤ min o c) : rowValidB df i = true := by
  unfold rowValidB
  rw [ho, hh, hl, hc]
  simp [h1, h2]

/-- Final row values and frame conditions of a validated adjustment. -/
theorem apply_run_values (df : DataFrame) (i : ℕ) (f : String) (dv : PVal) (o h l c : ℚ)
    (hf : f = "open" ∨ f = "high" ∨ f = "low" ∨ f = "close")
    (hnum : dv.isNumber = true)
    (hi : i < dfLen df)
    (ho : dfAt df i "Open" = some o) (hh : dfAt df i "High" = some h)
    (hl : dfAt df i "Low" = some l) (hc : dfAt df i "Close" = some c) :
    ∃ df', apply_candle_adjustment df i f dv = some (df', none) ∧
      dfAt df' i "Open" = some (adjCandle o h l c f dv.toRat).1 ∧
      dfAt df' i "High" = some (adjCandle o h l c f dv.toRat).2.1 ∧
      dfAt df' i "Low" = some (adjCandle o h l c f dv.toRat).2.2.1 ∧
      dfAt df' i "Close" = some (adjCandle o h l c f dv.toRat).2.2.2 ∧
      (∀ j c', j ≠ i → dfAt df' j c' = dfAt df j c') ∧
      colNames df' = colNames df ∧ dfLen df' = dfLen df := by
  obtain ⟨df1, df2, df3, hdf1, hdf2, hdf3, happ⟩ :=
    apply_run df i f dv o h l c hf hnum hi ho hh hl hc
  have hframe : ∀ j c', j ≠ i → dfAt df3 j c' = dfAt df j c' := by
    intro j c' hj
    rw [dfAt_dfSet_row_ne df2 df3 i j "Low" c' _ hdf3 hj,
      dfAt_dfSet_row_ne df1 df2 i j "High" c' _ hdf2 hj,
      dfAt_dfSet_row_ne df df1 i j (pyCapitalize f) c' _ hdf1 hj]
  have hnames : colNames df3 = colNames df :=
    (colNames_dfSet df2 df3 i "Low" _ hdf3).trans
      ((colNames_dfSet df1 df2 i "High" _ hdf2).trans
        (colNames_dfSet df df1 i (pyCapitalize f) _ hdf1))
  have hlen : dfLen df3 = dfLen df :=
    (dfLen_dfSet df2 df3 i "Low" _ hdf3).trans
      ((dfLen_dfSet df1 df2 i "High" _ hdf2).trans
        (dfLen_dfSet df df1 i (pyCapitalize f) _ hdf1))
  have hLow3 : dfAt df3 i "Low" = some (adjCandle o h l c f dv.toRat).2.2.1 :=
    dfAt_dfSet_self df2 df3 i "Low" _ hdf3
  have hHigh3 : dfAt df3 i "High" = some (adjCandle o h l c f dv.toRat).2.1 := by
    rw [dfAt_dfSet_col_ne df2 df3 i i "Low" "High" _ hdf3 (by decide)]
    exact dfAt_dfSet_self df1 df2 i "High" _ hdf2
  have hOpen1 : dfAt df1 i "Open" = some (adjCandle o h l c f dv.toRat).1 := by
    rcases hf with rfl | rfl | rfl | rfl
    · simpa [adjCandle, readField, writeField] using
        dfAt_dfSet_self df df1 i (pyCapitalize "open") _ hdf1
    · rw [show pyCapitalize "high" = "High" from by decide] at hdf1
      rw [dfAt_dfSet_col_ne df df1 i i "High" "Open" _ hdf1 (by decide), ho]
      simp [adjCandle, readField, writeField]
    · rw [show pyCapitalize "low" = "Low" from by decide] at hdf1
      rw [dfAt_dfSet_col_ne df df1 i i "Low" "Open" _ hdf1 (by decide), ho]
      simp [adjCandle, readField, writeField]
    · rw [show pyCapitalize "close" = "Close" from by decide] at hdf1
      rw [dfAt_dfSet_col_ne df df1 i i "Close" "Open" _ hdf1 (by decide), ho]
      simp [adjCandle, readField, writeField]
  have hClose1 : dfAt df1 i "Close" = some (adjCandle o h l c f dv.toRat).2.2.2 := by
    rcases hf with rfl | rfl | rfl | rfl
    · rw [show pyCapitalize "open" = "Open" from by decide] at hdf1
      rw [dfAt_dfSet_col_ne df df1 i i "Open" "Close" _ hdf1 (by decide), hc]
      simp [adjCandle, readField, writeField]
    · rw [show pyCapitalize "high" = "High" from by decide] at hdf1
      rw [dfAt_dfSet_col_ne df df1 i i "High" "Close" _ hdf1 (by decide), hc]
      simp [adjCandle, readField, writeField]
    · rw [show pyCapitalize "low" = "Low" from by decide] at hdf1
      rw [dfAt_dfSet_col_ne df df1 i i "Low" "Close" _ hdf1 (by decide), hc]
      simp [adjCandle, readField, writeField]
    · simpa [adjCandle, readField, writeField] using
        dfAt_dfSet_self df df1 i (pyCapitalize "close") _ hdf1
  have hOpen3 : dfAt df3 i "Open" = some (adjCandle o h l c f dv.toRat).1 := by
    rw [dfAt_dfSet_col_ne df2 df3 i i "Low" "Open" _ hdf3 (by decide),
      dfAt_dfSet_col_ne df1 df2 i i "High" "Open" _ hdf2 (by decide)]
    exact hOpen1
  have hClose3 : dfAt df3 i "Close" = some (adjCandle o h l c f dv.toRat).2.2.2 := by
    rw [dfAt_dfSet_col_ne df2 df3 i i "Low" "Close" _ hdf3 (by decide),
      dfAt_dfSet_col_ne df1 df2 i i "High" "Close" _ hdf2 (by decide)]
    exact hClose1
  exact ⟨df3, happ, hOpen3, hHigh3, hLow3, hClose3, hframe, hnames, hlen⟩

/-- Any non-exceptional outcome of `apply_candle_adjustment` is either the
unchanged frame (a validation failure) or the three-write success path on
the targeted row. -/
theorem apply_cases (df df' : DataFrame) (ci : ℤ) (f : String) (dv : PVal) (err : Option String)
    (h : apply_candle_adjustment df ci f dv = some (df', err)) :
    df' = df ∨ (0 ≤ ci ∧ ∃ F v1 v2 v3 df1 df2,
      dfSet df ci.toNat F v1 = some df1 ∧ dfSet df1 ci.toNat "High" v2 = some df2 ∧
      dfSet df2 ci.toNat "Low" v3 = some df') := by
  unfold apply_candle_adjustment at h
  split at h
  · injection h with h
    exact Or.inl ((Prod.mk.injEq _ _ _ _ ▸ h).1).symm
  split at h
  · injection h with h
    exact Or.inl ((Prod.mk.injEq _ _ _ _ ▸ h).1).symm
  split at h
  · injection h with h
    exact Or.inl ((Prod.mk.injEq _ _ _ _ ▸ h).1).symm
  have hci : 0 ≤ ci := by
    rename_i hv _ _
    push_neg at hv
    exact hv.1
  dsimp only at h
  split at h
  · exact absurd h (by simp)
  split at h
  · exact absurd h (by simp)
  rename_i df1 hdf1
  split at h
  · split at h
    · exact absurd h (by simp)
    rename_i df2 hdf2
    obtain ⟨df3, hdf3, heq⟩ := Option.map_eq_some'.mp h
    have : df' = df3 := by
      have := (Prod.mk.injEq _ _ _ _ ▸ heq).1
      exact this.symm
    subst this
    exact Or.inr ⟨hci, _, _, _, _, df1, df2, hdf1, hdf2, hdf3⟩
  · exact absurd h (by simp)

theorem readField_writeField (o h l c v : ℚ) (f : String)
    (hf : f = "open" ∨ f = "high" ∨ f = "low" ∨ f = "close") :
    readField (writeField o h l c f v).1 (writeField o h l c f v).2.1
      (writeField o h l c f v).2.2.1 (writeField o h l c f v).2.2.2 f = v := by
  rcases hf with rfl | rfl | rfl | rfl <;> simp [readField, writeField]

theorem writeField_writeField (o h l c v w : ℚ) (f : String)
    (hf : f = "open" ∨ f = "high" ∨ f = "low" ∨ f = "close") :
    writeField (writeField o h l c f v).1 (writeField o h l c f v).2.1
      (writeField o h l c f v).2.2.1 (writeField o h l c f v).2.2.2 f w =
      writeField o h l c f w := by
  rcases hf with rfl | rfl | rfl | rfl <;> simp [writeField]

theorem writeField_readField (o h l c : ℚ) (f : String)
    (hf : f = "open" ∨ f = "high" ∨ f = "low" ∨ f = "close") :
    writeField o h l c f (readField o h l c f) = (o, h, l, c) := by
  rcases hf with rfl | rfl | rfl | rfl <;> simp [readField, writeField]

/-- The capitalised field name addresses exactly the field's column. -/
theorem dfAt_field (df : DataFrame) (i : ℕ) (f : String) (o h l c : ℚ)
    (hf : f = "open" ∨ f = "high" ∨ f = "low" ∨ f = "close")
    (ho : dfAt df i "Open" = some o) (hh : dfAt df i "High" = some h)
    (hl : dfAt df i "Low" = some l) (hc : dfAt df i "Close" = some c) :
    dfAt df i (pyCapitalize f) = some (readField o h l c f) := by
  rcases hf with rfl | rfl | rfl | rfl
  · rw [show pyCapitalize "open" = "Open" from by decide, ho]
    simp [readField]
  · rw [show pyCapitalize "high" = "High" from by decide, hh]
    simp [readField]
  · rw [show pyCapitalize "low" = "Low" from by decide, hl]
    simp [readField]
  · rw [show pyCapitalize "close" = "Close" from by decide, hc]
    simp [readField]

/-- Row values after the primary write of a field. -/
theorem primary_write_values (df df1 : DataFrame) (i : ℕ) (f : String) (v o h l c : ℚ)
    (hf : f = "open" ∨ f = "high" ∨ f = "low" ∨ f = "close")
    (ho : dfAt df i "Open" = some o) (hh : dfAt df i "High" = some h)
    (hl : dfAt df i "Low" = some l) (hc : dfAt df i "Close" = some c)
    (hdf1 : dfSet df i (pyCapitalize f) v = some df1) :
    dfAt df1 i "Open" = some (writeField o h l c f v).1 ∧
    dfAt df1 i "High" = some (writeField o h l c f v).2.1 ∧
    dfAt df1 i "Low" = some (writeField o h l c f v).2.2.1 ∧
    dfAt df1 i "Close" = some (writeField o h l c f v).2.2.2 := by
  rcases hf with rfl | rfl | rfl | rfl
  · rw [show pyCapitalize "open" = "Open" from by decide] at hdf1
    refine ⟨?_, ?_, ?_, ?_⟩ <;> simp only [writeField, if_pos rfl]
    · exact dfAt_dfSet_self df df1 i "Open" v hdf1
    · rw [dfAt_dfSet_col_ne df df1 i i "Open" "High" v hdf1 (by decide)]; exact hh
    · rw [dfAt_dfSet_col_ne df df1 i i "Open" "Low" v hdf1 (by decide)]; exact hl
    · rw [dfAt_dfSet_col_ne df df1 i i "Open" "Close" v hdf1 (by decide)]; exact hc
  · rw [show pyCapitalize "high" = "High" from by decide] at hdf1
    refine ⟨?_, ?_, ?_, ?_⟩ <;> simp only [writeField, if_neg (by decide : ¬("high" : String) = "open"), if_pos rfl]
    · rw [dfAt_dfSet_col_ne df df1 i i "High" "Open" v hdf1 (by decide)]; exact ho
    · exact dfAt_dfSet_self df df1 i "High" v hdf1
    · rw [dfAt_dfSet_col_ne df df1 i i "High" "Low" v hdf1 (by decide)]; exact hl
    · rw [dfAt_dfSet_col_ne df df1 i i "High" "Close" v hdf1 (by decide)]; exact hc
  · rw [show pyCapitalize "low" = "Low" from by decide] at hdf1
    refine ⟨?_, ?_, ?_, ?_⟩ <;> simp only [writeField,
      if_neg (by decide : ¬("low" : String) = "open"),
      if_neg (by decide : ¬("low" : String) = "high"), if_pos rfl]
    · rw [dfAt_dfSet_col_ne df df1 i i "Low" "Open" v hdf1 (by decide)]; exact ho
    · rw [dfAt_dfSet_col_ne df df1 i i "Low" "High" v hdf1 (by decide)]; exact hh
    · exact dfAt_dfSet_self df df1 i "Low" v hdf1
    · rw [dfAt_dfSet_col_ne df df1 i i "Low" "Close" v hdf1 (by decide)]; exact hc
  · rw [show pyCapitalize "close" = "Close" from by decide] at hdf1
    refine ⟨?_, ?_, ?_, ?_⟩ <;> simp only [writeField,
      if_neg (by decide : ¬("close" : String) = "open"),
      if_neg (by decide : ¬("close" : String) = "high"),
      if_neg (by decide : ¬("close" : String) = "low")]
    · rw [dfAt_dfSet_col_ne df df1 i i "Close" "Open" v hdf1 (by decide)]; exact ho
    · rw [dfAt_dfSet_col_ne df df1 i i "Close" "High" v hdf1 (by decide)]; exact hh
    · rw [dfAt_dfSet_col_ne df df1 i i "Close" "Low" v hdf1 (by decide)]; exact hl
    · exact dfAt_dfSet_self df df1 i "Close" v hdf1

/-- C1: adjusting a valid dataset at a valid index, field and signed-unit
direction succeeds and every row of the result still satisfies
`high ≥ max(open, close)` and `low ≤ min(open, close)`. -/
theorem adjust_preserves_ohlc_invariant (df : DataFrame) (i : ℕ) (f : String) (dv : PVal)
    (hrows : ∀ j, j < dfLen df → rowValidB df j = true)
    (hi : i < dfLen df)
    (hf : f = "open" ∨ f = "high" ∨ f = "low" ∨ f = "close")
    (hd : dv = .pint 1 ∨ dv = .pint (-1)) :
    ∃ df', apply_candle_adjustment df i f dv = some (df', none) ∧
      ∀ j, j < dfLen df' → rowValidB df' j = true := by
  obtain ⟨o, h, l, c, ho, hh, hl, hc, _, _⟩ := rowValidB_elim df i (hrows i hi)
  have hnum : dv.isNumber = true := by rcases hd with rfl | rfl <;> rfl
  obtain ⟨df', happ, hO, hH, hL, hC, hframe, _, hlen⟩ :=
    apply_run_values df i f dv o h l c hf hnum hi ho hh hl hc
  refine ⟨df', happ, ?_⟩
  intro j hj
  rw [hlen] at hj
  by_cases hij : j = i
  · subst hij
    exact rowValidB_intro df' j _ _ _ _ hO hH hL hC
      (adjCandle_valid o h l c f dv.toRat).1 (adjCandle_valid o h l c f dv.toRat).2
  · rw [rowValidB_congr df df' j fun c' => hframe j c' hij]
    exact hrows j hj

theorem adjust_preserves_ohlc_invariant_witness :
    ∃ df', apply_candle_adjustment
        [("Open", [100, 105]), ("High", [110, 112]), ("Low", [90, 95]), ("Close", [105, 110])]
        0 "open" (.pint 1) = some (df', none) ∧
      ∀ j, j < dfLen df' → rowValidB df' j = true :=
  adjust_preserves_ohlc_invariant
    [("Open", [100, 105]), ("High", [110, 112]), ("Low", [90, 95]), ("Close", [105, 110])]
    0 "open" (.pint 1) (by decide) (by decide) (Or.inl rfl) (Or.inl rfl)

/-- C8: whenever `apply_candle_adjustment` returns a dataset (validation
failure or success), every row other than the targeted index is unchanged
in every column, and the column layout is unchanged. -/
theorem adjust_cross_row_independence (df df' : DataFrame) (ci : ℤ) (f : String) (dv : PVal)
    (err : Option String)
    (happ : apply_candle_adjustment df ci f dv = some (df', err)) :
    (∀ j : ℕ, (j : ℤ) ≠ ci → ∀ col, dfAt df' j col = dfAt df j col) ∧
      colNames df' = colNames df ∧ dfLen df' = dfLen df := by
  rcases apply_cases df df' ci f dv err happ with rfl | ⟨hci, F, v1, v2, v3, df1, df2, h1, h2, h3⟩
  · exact ⟨fun j _ col => rfl, rfl, rfl⟩
  · have hframe : ∀ j : ℕ, (j : ℤ) ≠ ci → ∀ col, dfAt df' j col = dfAt df j col := by
      intro j hj col
      have hjj : j ≠ ci.toNat := fun e => hj (by rw [e, Int.toNat_of_nonneg hci])
      rw [dfAt_dfSet_row_ne df2 df' ci.toNat j "Low" col _ h3 hjj,
        dfAt_dfSet_row_ne df1 df2 ci.toNat j "High" col _ h2 hjj,
        dfAt_dfSet_row_ne df df1 ci.toNat j F col _ h1 hjj]
    refine ⟨hframe, ?_, ?_⟩
    · exact (colNames_dfSet df2 df' ci.toNat "Low" _ h3).trans
        ((colNames_dfSet df1 df2 ci.toNat "High" _ h2).trans
          (colNames_dfSet df df1 ci.toNat F _ h1))
    · exact (dfLen_dfSet df2 df' ci.toNat "Low" _ h3).trans
        ((dfLen_dfSet df1 df2 ci.toNat "High" _ h2).trans
          (dfLen_dfSet df df1 ci.toNat F _ h1))

theorem adjust_cross_row_independence_witness :
    (∀ j : ℕ, (j : ℤ) ≠ 0 → ∀ col,
      dfAt [("Open", [101, 105]), ("High", [110, 112]), ("Low", [90, 95]), ("Close", [105, 110])]
        j col =
      dfAt [("Open", [100, 105]), ("High", [110, 112]), ("Low", [90, 95]), ("Close", [105, 110])]
        j col) ∧
    colNames [("Open", [101, 105]), ("High", [110, 112]), ("Low", [90, 95]), ("Close", [105, 110])] =
      colNames [("Open", [100, 105]), ("High", [110, 112]), ("Low", [90, 95]), ("Close", [105, 110])] ∧
    dfLen [("Open", [101, 105]), ("High", [110, 112]), ("Low", [90, 95]), ("Close", [105, 110])] =
      dfLen [("Open", [100, 105]), ("High", [110, 112]), ("Low", [90, 95]), ("Close", [105, 110])] :=
  adjust_cross_row_independence
    [("Open", [100, 105]), ("High", [110, 112]), ("Low", [90, 95]), ("Close", [105, 110])]
    [("Open", [101, 105]), ("High", [110, 112]), ("Low", [90, 95]), ("Close", [105, 110])]
    0 "open" (.pint 1) none (by decide)

/-- C3 counterexample: the engine accepts `direction = 2`, which is neither
`+1` nor `−1`: no `InvalidDirection` error is returned and the dataset is
changed (Open stepped by 2), refuting the claimed signed-unit validation of
`apply_candle_adjustment`. -/
theorem adjust_direction_validation_counterexample :
    apply_candle_adjustment [("Open", [100]), ("High", [110]), ("Low", [90]), ("Close", [105])]
      0 "open" (.pint 2) =
      some ([("Open", [102]), ("High", [110]), ("Low", [90]), ("Close", [105])], none) ∧
    ([("Open", [102]), ("High", [110]), ("Low", [90]), ("Close", [105])] : DataFrame) ≠
      [("Open", [100]), ("High", [110]), ("Low", [90]), ("Close", [105])] := by
  constructor
  · decide
  · decide

/-- C3 amended: `apply_candle_adjustment` fails with the index error exactly
when the index is out of range and with the field error when the field is
invalid, returning the dataset unchanged; its only direction check is
`isinstance(direction, (int, float))`, so non-numeric directions error out
(dataset unchanged) while any numeric direction — not just ±1 — is
accepted.  The ±1 check the spec describes exists only in the plugin-level
`adjust_candle_value`. -/
theorem adjust_validation_behaviour (df : DataFrame) (ci : ℤ) (f : String) (dv : PVal) :
    ((ci < 0 ∨ (dfLen df : ℤ) ≤ ci) →
      apply_candle_adjustment df ci f dv =
        some (df, some ("Candle index " ++ toString ci ++ " out of range"))) ∧
    (¬(ci < 0 ∨ (dfLen df : ℤ) ≤ ci) →
      f ∉ (["high", "low", "open", "close"] : List String) →
      apply_candle_adjustment df ci f dv = some (df, some ("Invalid value type: " ++ f))) ∧
    (¬(ci < 0 ∨ (dfLen df : ℤ) ≤ ci) →
      f ∈ (["high", "low", "open", "close"] : List String) →
      dv.isNumber = false →
      apply_candle_adjustment df ci f dv =
        some (df, some ("Invalid direction: " ++ dv.pyStr))) ∧
    (¬(ci < 0 ∨ (dfLen df : ℤ) ≤ ci) →
      f ∈ (["high", "low", "open", "close"] : List String) →
      ¬(dv.isNumber = true ∧ (dv.toRat = 1 ∨ dv.toRat = -1)) →
      adjust_candle_value df ci f dv =
        some (df, some ("Invalid direction: " ++ dv.pyStr))) := by
  refine ⟨fun h1 => ?_, fun h1 h2 => ?_, fun h1 h2 h3 => ?_, fun h1 h2 h3 => ?_⟩
  · rw [apply_candle_adjustment, if_pos h1]
  · rw [apply_candle_adjustment, if_neg h1, if_pos h2]
  · rw [apply_candle_adjustment, if_neg h1, if_neg (not_not_intro h2),
      if_pos (by simp [h3])]
  · rw [adjust_candle_value, if_neg h1, if_neg (not_not_intro h2), if_pos h3]

theorem adjust_validation_behaviour_witness :
    apply_candle_adjustment [("Open", [100]), ("High", [110]), ("Low", [90]), ("Close", [105])]
      10 "open" (.pint 1) =
      some ([("Open", [100]), ("High", [110]), ("Low", [90]), ("Close", [105])],
        some ("Candle index " ++ toString (10 : ℤ) ++ " out of range")) ∧
    apply_candle_adjustment [("Open", [100]), ("High", [110]), ("Low", [90]), ("Close", [105])]
      0 "volume" (.pint 1) =
      some ([("Open", [100]), ("High", [110]), ("Low", [90]), ("Close", [105])],
        some ("Invalid value type: " ++ "volume")) ∧
    apply_candle_adjustment [("Open", [100]), ("High", [110]), ("Low", [90]), ("Close", [105])]
      0 "open" (.pstr "up") =
      some ([("Open", [100]), ("High", [110]), ("Low", [90]), ("Close", [105])],
        some ("Invalid direction: " ++ (PVal.pstr "up").pyStr)) ∧
    adjust_candle_value [("Open", [100]), ("High", [110]), ("Low", [90]), ("Close", [105])]
      0 "open" (.pint 2) =
      some ([("Open", [100]), ("High", [110]), ("Low", [90]), ("Close", [105])],
        some ("Invalid direction: " ++ (PVal.pint 2).pyStr)) :=
  ⟨(adjust_validation_behaviour
      [("Open", [100]), ("High", [110]), ("Low", [90]), ("Close", [105])] 10 "open"
      (.pint 1)).1 (by decide),
   (adjust_validation_behaviour
      [("Open", [100]), ("High", [110]), ("Low", [90]), ("Close", [105])] 0 "volume"
      (.pint 1)).2.1 (by decide) (by decide),
   (adjust_validation_behaviour
      [("Open", [100]), ("High", [110]), ("Low", [90]), ("Close", [105])] 0 "open"
      (.pstr "up")).2.2.1 (by decide) (by decide) rfl,
   (adjust_validation_behaviour
      [("Open", [100]), ("High", [110]), ("Low", [90]), ("Close", [105])] 0 "open"
      (.pint 2)).2.2.2 (by decide) (by decide) (by decide)⟩

theorem if_gt_eq_max (x y : ℚ) : (if x > y then x else y) = max y x := by
  split
  · exact (max_eq_right (le_of_lt (by assumption))).symm
  · exact (max_eq_left (not_lt.mp (by assumption))).symm

theorem if_lt_eq_min (x y : ℚ) : (if x < y then x else y) = min y x := by
  split
  · exact (min_eq_right (le_of_lt (by assumption))).symm
  · exact (min_eq_left (not_lt.mp (by assumption))).symm

theorem adjCandle_open_components (o h l c d : ℚ) :
    adjCandle o h l c "open" d =
      (o + 1.0 * d, max h (max (o + 1.0 * d) c), min l (min (o + 1.0 * d) c), c) := by
  simp only [adjCandle, readField, writeField, reduceIte]
  rw [if_gt_eq_max, if_lt_eq_min]

theorem adjCandle_close_components (o h l c d : ℚ) :
    adjCandle o h l c "close" d =
      (o, max h (max o (c + 1.0 * d)), min l (min o (c + 1.0 * d)), c + 1.0 * d) := by
  simp only [adjCandle, readField, writeField,
    if_neg (by decide : ¬("close" : String) = "open"),
    if_neg (by decide : ¬("close" : String) = "high"),
    if_neg (by decide : ¬("close" : String) = "low")]
  rw [if_gt_eq_max, if_lt_eq_min]

/-- C4: an `open`/`close` edit writes `old + direction × 1.0` and then High
becomes `max(old high, new open, new close)` and Low becomes
`min(old low, new open, new close)` (extend only); in particular ten unit
increments from `{O:100, H:110, L:90, C:105}` reach Open 110 with High still
110, and the eleventh gives Open 111 and High 111. -/
theorem adjust_open_close_extend_only (df : DataFrame) (i : ℕ) (f : String) (dv : PVal)
    (o h l c : ℚ)
    (hf : f = "open" ∨ f = "close")
    (hnum : dv.isNumber = true)
    (hi : i < dfLen df)
    (ho : dfAt df i "Open" = some o) (hh : dfAt df i "High" = some h)
    (hl : dfAt df i "Low" = some l) (hc : dfAt df i "Close" = some c) :
    (∃ df', apply_candle_adjustment df i f dv = some (df', none) ∧
      dfAt df' i "Open" = some (if f = "open" then o + 1.0 * dv.toRat else o) ∧
      dfAt df' i "Close" = some (if f = "close" then c + 1.0 * dv.toRat else c) ∧
      dfAt df' i "High" = some (max h (max (if f = "open" then o + 1.0 * dv.toRat else o)
        (if f = "close" then c + 1.0 * dv.toRat else c))) ∧
      dfAt df' i "Low" = some (min l (min (if f = "open" then o + 1.0 * dv.toRat else o)
        (if f = "close" then c + 1.0 * dv.toRat else c)))) ∧
    adjustIter [("Open", [100]), ("High", [110]), ("Low", [90]), ("Close", [105])] "open" 10 =
      some [("Open", [110]), ("High", [110]), ("Low", [90]), ("Close", [105])] ∧
    adjustIter [("Open", [100]), ("High", [110]), ("Low", [90]), ("Close", [105])] "open" 11 =
      some [("Open", [111]), ("High", [111]), ("Low", [90]), ("Close", [105])] := by
  refine ⟨?_, by decide, by decide⟩
  rcases hf with rfl | rfl
  · obtain ⟨df', happ, hO, hH, hL, hC, _, _, _⟩ := apply_run_values df i "open" dv o h l c
      (Or.inl rfl) hnum hi ho hh hl hc
    refine ⟨df', happ, ?_, ?_, ?_, ?_⟩ <;>
      simp [hO, hC, hH, hL, adjCandle_open_components]
  · obtain ⟨df', happ, hO, hH, hL, hC, _, _, _⟩ := apply_run_values df i "close" dv o h l c
      (Or.inr (Or.inr (Or.inr rfl))) hnum hi ho hh hl hc
    refine ⟨df', happ, ?_, ?_, ?_, ?_⟩ <;>
      simp [hO, hC, hH, hL, adjCandle_close_components]

theorem adjust_open_close_extend_only_witness :
    (∃ df', apply_candle_adjustment
        [("Open", [100]), ("High", [110]), ("Low", [90]), ("Close", [105])]
        0 "open" (.pint 1) = some (df', none) ∧
      dfAt df' 0 "Open" =
        some (if "open" = "open" then 100 + 1.0 * (PVal.pint 1).toRat else 100) ∧
      dfAt df' 0 "Close" =
        some (if "open" = "close" then 105 + 1.0 * (PVal.pint 1).toRat else 105) ∧
      dfAt df' 0 "High" = some (max 110
        (max (if "open" = "open" then 100 + 1.0 * (PVal.pint 1).toRat else 100)
          (if "open" = "close" then 105 + 1.0 * (PVal.pint 1).toRat else 105))) ∧
      dfAt df' 0 "Low" = some (min 90
        (min (if "open" = "open" then 100 + 1.0 * (PVal.pint 1).toRat else 100)
          (if "open" = "close" then 105 + 1.0 * (PVal.pint 1).toRat else 105)))) ∧
    adjustIter [("Open", [100]), ("High", [110]), ("Low", [90]), ("Close", [105])] "open" 10 =
      some [("Open", [110]), ("High", [110]), ("Low", [90]), ("Close", [105])] ∧
    adjustIter [("Open", [100]), ("High", [110]), ("Low", [90]), ("Close", [105])] "open" 11 =
      some [("Open", [111]), ("High", [111]), ("Low", [90]), ("Close", [105])] :=
  adjust_open_close_extend_only
    [("Open", [100]), ("High", [110]), ("Low", [90]), ("Close", [105])]
    0 "open" (.pint 1) 100 110 90 105 (Or.inl rfl) rfl (by decide)
    (by decide) (by decide) (by decide) (by decide)

/-- C5: on a valid dataset, a `+1` adjustment followed by a `−1` adjustment
of the same valid index and field restores the original dataset, provided
the `+1` step did not trigger the boundary extension of High or Low (the
documented non-invertible case). -/
theorem adjust_inverse_roundtrip (df : DataFrame) (i : ℕ) (f : String) (o h l c : ℚ)
    (hrows : ∀ j, j < dfLen df → rowValidB df j = true)
    (hi : i < dfLen df)
    (hf : f = "open" ∨ f = "high" ∨ f = "low" ∨ f = "close")
    (ho : dfAt df i "Open" = some o) (hh : dfAt df i "High" = some h)
    (hl : dfAt df i "Low" = some l) (hc : dfAt df i "Close" = some c)
    (hnoext : adjustmentExtends o h l c f 1 = false) :
    (apply_candle_adjustment df i f (.pint 1)).bind
      (fun p => apply_candle_adjustment p.1 i f (.pint (-1))) = some (df, none) := by
  obtain ⟨o2, h2, l2, c2, ho2, hh2, hl2, hc2, hv1, hv2⟩ := rowValidB_elim df i (hrows i hi)
  have eo := Option.some.inj (ho.symm.trans ho2)
  have eh := Option.some.inj (hh.symm.trans hh2)
  have el := Option.some.inj (hl.symm.trans hl2)
  have ec := Option.some.inj (hc.symm.trans hc2)
  subst eo eh el ec
  have h1r : (PVal.pint 1).toRat = 1 := by norm_num [PVal.toRat]
  have hm1r : (PVal.pint (-1)).toRat = -1 := by norm_num [PVal.toRat]
  obtain ⟨df1, df2, df3, hdf1, hdf2, hdf3, happ1⟩ :=
    apply_run df i f (.pint 1) o h l c hf rfl hi ho hh hl hc
  rw [h1r] at hdf1 hdf2 hdf3
  have hne : ¬(max (writeField o h l c f (readField o h l c f + 1.0 * 1)).1
        (writeField o h l c f (readField o h l c f + 1.0 * 1)).2.2.2 >
      (writeField o h l c f (readField o h l c f + 1.0 * 1)).2.1) ∧
      ¬(min (writeField o h l c f (readField o h l c f + 1.0 * 1)).1
        (writeField o h l c f (readField o h l c f + 1.0 * 1)).2.2.2 <
      (writeField o h l c f (readField o h l c f + 1.0 * 1)).2.2.1) := by
    have := hnoext
    simp only [adjustmentExtends, Bool.or_eq_false_iff, decide_eq_false_iff_not] at this
    exact this
  have hHval : (adjCandle o h l c f 1).2.1 =
      (writeField o h l c f (readField o h l c f + 1.0 * 1)).2.1 := by
    simp only [adjCandle]
    rw [if_neg hne.1]
  have hLval : (adjCandle o h l c f 1).2.2.1 =
      (writeField o h l c f (readField o h l c f + 1.0 * 1)).2.2.1 := by
    simp only [adjCandle]
    rw [if_neg hne.2]
  obtain ⟨pO, pH, pL, pC⟩ := primary_write_values df df1 i f
    (readField o h l c f + 1.0 * 1) o h l c hf ho hh hl hc hdf1
  have idH : dfSet df1 i "High" (adjCandle o h l c f 1).2.1 = some df1 := by
    rw [hHval]
    exact dfSet_id df1 i "High" _ pH
  have e2 : df1 = df2 := (Option.some.inj (hdf2.symm.trans idH)).symm
  subst e2
  have idL : dfSet df1 i "Low" (adjCandle o h l c f 1).2.2.1 = some df1 := by
    rw [hLval]
    exact dfSet_id df1 i "Low" _ pL
  have e3 : df1 = df3 := (Option.some.inj (hdf3.symm.trans idL)).symm
  subst e3
  have hi1 : i < dfLen df1 := by
    rw [dfLen_dfSet df df1 i (pyCapitalize f) _ hdf1]
    exact hi
  obtain ⟨g1, g2, g3, hg1, hg2, hg3, happ2⟩ :=
    apply_run df1 i f (.pint (-1))
      (writeField o h l c f (readField o h l c f + 1.0 * 1)).1
      (writeField o h l c f (readField o h l c f + 1.0 * 1)).2.1
      (writeField o h l c f (readField o h l c f + 1.0 * 1)).2.2.1
      (writeField o h l c f (readField o h l c f + 1.0 * 1)).2.2.2
      hf rfl hi1 pO pH pL pC
  rw [hm1r] at hg1 hg2 hg3
  have hv2eq : readField (writeField o h l c f (readField o h l c f + 1.0 * 1)).1
      (writeField o h l c f (readField o h l c f + 1.0 * 1)).2.1
      (writeField o h l c f (readField o h l c f + 1.0 * 1)).2.2.1
      (writeField o h l c f (readField o h l c f + 1.0 * 1)).2.2.2 f + 1.0 * (-1) =
      readField o h l c f := by
    rw [readField_writeField o h l c _ f hf]
    norm_num
  rw [hv2eq] at hg1
  have hid1 : dfSet df1 i (pyCapitalize f) (readField o h l c f) = some df := by
    rw [dfSet_dfSet df df1 i (pyCapitalize f) _ _ hdf1]
    exact dfSet_id df i (pyCapitalize f) _ (dfAt_field df i f o h l c hf ho hh hl hc)
  have eg1 : df = g1 := (Option.some.inj (hg1.symm.trans hid1)).symm
  subst eg1
  have ht2 : writeField (writeField o h l c f (readField o h l c f + 1.0 * 1)).1
      (writeField o h l c f (readField o h l c f + 1.0 * 1)).2.1
      (writeField o h l c f (readField o h l c f + 1.0 * 1)).2.2.1
      (writeField o h l c f (readField o h l c f + 1.0 * 1)).2.2.2 f
      (readField (writeField o h l c f (readField o h l c f + 1.0 * 1)).1
        (writeField o h l c f (readField o h l c f + 1.0 * 1)).2.1
        (writeField o h l c f (readField o h l c f + 1.0 * 1)).2.2.1
        (writeField o h l c f (readField o h l c f + 1.0 * 1)).2.2.2 f + 1.0 * (-1)) =
      (o, h, l, c) := by
    rw [hv2eq, writeField_writeField o h l c _ _ f hf, writeField_readField o h l c f hf]
  have hA2H : (adjCandle (writeField o h l c f (readField o h l c f + 1.0 * 1)).1
      (writeField o h l c f (readField o h l c f + 1.0 * 1)).2.1
      (writeField o h l c f (readField o h l c f + 1.0 * 1)).2.2.1
      (writeField o h l c f (readField o h l c f + 1.0 * 1)).2.2.2 f (-1)).2.1 = h := by
    simp only [adjCandle]
    rw [ht2]
    exact if_neg (not_lt.mpr hv1)
  have hA2L : (adjCandle (writeField o h l c f (readField o h l c f + 1.0 * 1)).1
      (writeField o h l c f (readField o h l c f + 1.0 * 1)).2.1
      (writeField o h l c f (readField o h l c f + 1.0 * 1)).2.2.1
      (writeField o h l c f (readField o h l c f + 1.0 * 1)).2.2.2 f (-1)).2.2.1 = l := by
    simp only [adjCandle]
    rw [ht2]
    exact if_neg (not_lt.mpr hv2)
  rw [hA2H] at hg2
  have eg2 : df = g2 := (Option.some.inj (hg2.symm.trans (dfSet_id df i "High" h hh))).symm
  subst eg2
  rw [hA2L] at hg3
  have eg3 : df = g3 := (Option.some.inj (hg3.symm.trans (dfSet_id df i "Low" l hl))).symm
  subst eg3
  rw [happ1, Option.some_bind]
  exact happ2

theorem adjust_inverse_roundtrip_witness :
    (apply_candle_adjustment
        [("Open", [100]), ("High", [110]), ("Low", [90]), ("Close", [105])] 0 "open"
        (.pint 1)).bind
      (fun p => apply_candle_adjustment p.1 0 "open" (.pint (-1))) =
      some ([("Open", [100]), ("High", [110]), ("Low", [90]), ("Close", [105])], none) :=
  adjust_inverse_roundtrip
    [("Open", [100]), ("High", [110]), ("Low", [90]), ("Close", [105])]
    0 "open" 100 110 90 105 (by decide) (by decide) (Or.inl rfl)
    (by decide) (by decide) (by decide) (by decide) (by decide)

/-- C2 counterexample: the renderer truncates with `int(...)` rather than
rounding.  At `min_price = 0`, `max_price = 9`, `price = 3/10` the scaled
value is `8.7`: the code maps it to row 8 while the specification's
`round` formula gives row 9. -/
theorem price_to_row_rounding_counterexample :
    create_price_to_row_mapper 0 9 CHART_HEIGHT (3 / 10) = 8 ∧
    spec_price_to_row 0 9 CHART_HEIGHT (3 / 10) = 9 ∧
    create_price_to_row_mapper 0 9 CHART_HEIGHT (3 / 10) ≠
      spec_price_to_row 0 9 CHART_HEIGHT (3 / 10) := by
  refine ⟨?_, ?_, ?_⟩ <;> decide

/-- C2 amended: for a non-flat range and prices inside `[min_price,
max_price]`, the mapper computes
`clamp(floor((1 − (p − min)/(max − min)) × (H − 1)), 0, H − 1)` with
`H = 10` — truncation (`int(...)`), not rounding; the top price maps to
row 0, the bottom price to row 9, and the mapping is weakly decreasing. -/
theorem price_to_row_floor_clamp_antitone (lo hi p q : ℚ)
    (hlt : lo < hi) (hp1 : lo ≤ p) (hp2 : p ≤ hi) (hq1 : lo ≤ q) (hq2 : q ≤ hi)
    (hpq : p ≤ q) :
    create_price_to_row_mapper lo hi CHART_HEIGHT p =
      max 0 (min 9 ⌊(1 - (p - lo) / (hi - lo)) * 9⌋) ∧
    create_price_to_row_mapper lo hi CHART_HEIGHT hi = 0 ∧
    create_price_to_row_mapper lo hi CHART_HEIGHT lo = 9 ∧
    create_price_to_row_mapper lo hi CHART_HEIGHT q ≤
      create_price_to_row_mapper lo hi CHART_HEIGHT p := by
  have hpos : (0 : ℚ) < hi - lo := sub_pos.mpr hlt
  have key : ∀ r, lo ≤ r → r ≤ hi → create_price_to_row_mapper lo hi CHART_HEIGHT r =
      max 0 (min 9 ⌊(1 - (r - lo) / (hi - lo)) * 9⌋) := by
    intro r h1 h2
    rw [create_price_to_row_mapper, if_neg (ne_of_gt hlt)]
    dsimp only
    have hnn : 0 ≤ (1 - (r - lo) / (hi - lo)) * ((CHART_HEIGHT : ℚ) - 1) := by
      apply mul_nonneg
      · have hle : (r - lo) / (hi - lo) ≤ 1 := by
          rw [div_le_one hpos]
          linarith
        linarith
      · norm_num [CHART_HEIGHT]
    rw [pyTrunc, if_pos hnn]
    norm_num [CHART_HEIGHT]
  refine ⟨key p hp1 hp2, ?_, ?_, ?_⟩
  · rw [key hi (le_of_lt hlt) (le_refl hi)]
    rw [div_self (ne_of_gt hpos)]
    norm_num
  · rw [key lo (le_refl lo) (le_of_lt hlt)]
    norm_num
  · rw [key p hp1 hp2, key q hq1 hq2]
    have hdiv : (p - lo) / (hi - lo) ≤ (q - lo) / (hi - lo) := by
      rw [div_le_div_iff₀ hpos hpos]
      nlinarith
    have hfl : ⌊(1 - (q - lo) / (hi - lo)) * 9⌋ ≤ ⌊(1 - (p - lo) / (hi - lo)) * 9⌋ :=
      Int.floor_le_floor (by nlinarith)
    exact max_le_max (le_refl 0) (min_le_min (le_refl 9) hfl)

theorem price_to_row_floor_clamp_antitone_witness :
    create_price_to_row_mapper 0 9 CHART_HEIGHT 1 =
      max 0 (min 9 ⌊(1 - ((1 : ℚ) - 0) / (9 - 0)) * 9⌋) ∧
    create_price_to_row_mapper 0 9 CHART_HEIGHT 9 = 0 ∧
    create_price_to_row_mapper 0 9 CHART_HEIGHT 0 = 9 ∧
    create_price_to_row_mapper 0 9 CHART_HEIGHT 2 ≤ create_price_to_row_mapper 0 9 CHART_HEIGHT 1 :=
  price_to_row_floor_clamp_antitone 0 9 1 2 (by decide) (by decide) (by decide)
    (by decide) (by decide) (by decide)

/-- C7: rendering an empty dataset returns exactly `"No data to render."`,
and rendering a non-empty OHLC dataset whose maximal High equals its
minimal Low returns exactly the flat-range message; both are ordinary
return values. -/
theorem render_empty_and_flat_messages (df : DataFrame) (lows highs : List ℚ) (m : ℚ) :
    (dfLen df = 0 → render_chart df = some "No data to render.") ∧
    (dfLen df ≠ 0 → (∀ col ∈ required_columns, col ∈ colNames df) →
      getCol df "Low" = some lows → getCol df "High" = some highs →
      seriesMin lows = some m → seriesMax highs = some m →
      render_chart df = some "Price range is flat, cannot render meaningful chart.") := by
  constructor
  · intro h0
    have hval : validate_ohlc_dataframe df = (false, "No data to render.") := by
      rw [validate_ohlc_dataframe, if_pos h0]
    simp only [render_chart, hval]
  · intro hne hcols hlow hhigh hmin hmax
    have hmiss : (required_columns.filter fun col => ¬ (colNames df).contains col) = [] := by
      rw [List.filter_eq_nil_iff]
      intro a ha
      simpa using hcols a ha
    have hval : validate_ohlc_dataframe df = (true, "") := by
      rw [validate_ohlc_dataframe, if_neg hne]
      simp [hmiss]
      exact hcols
    simp [render_chart, hval, hlow, hhigh, hmin, hmax]

theorem render_empty_and_flat_messages_witness :
    render_chart [] = some "No data to render." ∧
    render_chart [("Open", [100]), ("High", [100]), ("Low", [100]), ("Close", [100])] =
      some "Price range is flat, cannot render meaningful chart." :=
  ⟨(render_empty_and_flat_messages [] [] [] 0).1 rfl,
   (render_empty_and_flat_messages
      [("Open", [100]), ("High", [100]), ("Low", [100]), ("Close", [100])]
      [100] [100] 100).2 (by decide) (by decide) rfl rfl rfl rfl⟩

/-- C10: a non-empty dataset missing one or more of the four OHLC columns
renders to the soft-failure string naming the missing columns — a third
soft-failure mode beyond the empty and flat cases. -/
theorem render_missing_columns_message (df : DataFrame)
    (hne : dfLen df ≠ 0)
    (hmiss : (required_columns.filter fun col => ¬ (colNames df).contains col) ≠ []) :
    render_chart df = some ("Missing required columns: " ++
      pyStrList (required_columns.filter fun col => ¬ (colNames df).contains col)) := by
  have hval : validate_ohlc_dataframe df = (false, "Missing required columns: " ++
      pyStrList (required_columns.filter fun col => ¬ (colNames df).contains col)) := by
    rw [validate_ohlc_dataframe, if_neg hne]
    dsimp only
    rw [if_pos hmiss]
  simp only [render_chart, hval]

theorem render_missing_columns_message_witness :
    render_chart [("Open", [100]), ("Low", [100])] = some ("Missing required columns: " ++
      pyStrList (required_columns.filter fun col =>
        ¬ (colNames [("Open", [100]), ("Low", [100])]).contains col)) :=
  render_missing_columns_message [("Open", [100]), ("Low", [100])] (by decide) (by decide)

/-- C9: a `move_cursor` command with `row`/`col` parameters always succeeds,
updating only the cursor: buffer content, variable name and file path are
those of the input state, and no parsing of the buffer is involved (the
buffer is arbitrary). -/
theorem move_cursor_pure_transition (s : EditorState) (cmd : EditorCommand) (r c : PVal)
    (hcmd : cmd.command_type = "move_cursor")
    (hr : lookupParam cmd.parameters "row" = some r)
    (hc : lookupParam cmd.parameters "col" = some c) :
    handle_editor_command s cmd =
      some (⟨s.buffer_content, s.variable_name, s.file_path, (r, c)⟩, none) := by
  rw [handle_editor_command, if_neg (by simp [hcmd]), if_pos hcmd]
  simp only [hr, hc]

theorem move_cursor_pure_transition_witness :
    handle_editor_command ⟨"not even python", "df", "/tmp/f.py", (.pint 0, .pint 0)⟩
      (create_cursor_movement_command 5 7) =
      some (⟨"not even python", "df", "/tmp/f.py", (.pint 5, .pint 7)⟩, none) :=
  move_cursor_pure_transition
    ⟨"not even python", "df", "/tmp/f.py", (.pint 0, .pint 0)⟩
    (create_cursor_movement_command 5 7) (.pint 5) (.pint 7) rfl (by decide) (by decide)

/-! Round-trip lemmas for the buffer codec. -/

theorem dropPre_append (p rest : List Char) : dropPre p (p ++ rest) = some rest := by
  induction p with
  | nil => rfl
  | cons c cs ih => simp [dropPre, ih]

theorem scanTo_append (stop : Char) (xs rest : List Char) (h : stop ∉ xs) :
    scanTo stop (xs ++ stop :: rest) = some (xs, rest) := by
  induction xs with
  | nil => simp [scanTo]
  | cons c cs ih =>
    have hc : c ≠ stop := fun e => h (e ▸ List.mem_cons_self c cs)
    have step : ∀ (x : Char) (xs : List Char), scanTo stop (x :: xs) =
        if x = stop then some ([], xs)
        else (scanTo stop xs).map fun p => (x :: p.1, p.2) := fun x xs => rfl
    rw [List.cons_append, step, if_neg hc, ih fun hm => h (List.mem_cons_of_mem c hm),
      Option.map_some']

theorem splitComma_single (a : List Char) (h : ',' ∉ a) : splitComma a = [a] := by
  induction a with
  | nil => rfl
  | cons c cs ih =>
    have hc : ¬c = ',' := fun e => h (e ▸ List.mem_cons_self c cs)
    simp only [splitComma, if_neg hc, ih fun hm => h (List.mem_cons_of_mem c hm)]

theorem splitComma_append (a b : List Char) (h : ',' ∉ a) :
    splitComma (a ++ ',' :: b) = a :: splitComma b := by
  induction a with
  | nil => simp [splitComma]
  | cons c cs ih =>
    have hc : ¬c = ',' := fun e => h (e ▸ List.mem_cons_self c cs)
    have step : ∀ (x : Char) (xs : List Char), splitComma (x :: xs) =
        if x = ',' then [] :: splitComma xs
        else match splitComma xs with
          | [] => [[x]]
          | g :: gs => (x :: g) :: gs := fun x xs => rfl
    rw [List.cons_append, step, if_neg hc, ih fun hm => h (List.mem_cons_of_mem c hm)]

theorem joinSep_cons (sep : List Char) (x : List Char) (y : List Char) (ys : List (List Char)) :
    joinSep sep (x :: y :: ys) = x ++ sep ++ joinSep sep (y :: ys) := rfl

theorem digitChar_isDigit (d : ℕ) (hd : d < 10) : (Char.ofNat (48 + d)).isDigit = true := by
  interval_cases d <;> decide

theorem digitChar_val (d : ℕ) (hd : d < 10) : digitVal (Char.ofNat (48 + d)) = d := by
  interval_cases d <;> decide

theorem natChars_ne_nil (n : ℕ) : natChars n ≠ [] := by
  unfold natChars
  split
  · simp
  · intro e
    have hne : Nat.digits 10 n ≠ [] := Nat.digits_ne_nil_iff_ne_zero.mpr (by assumption)
    simp only [List.map_eq_nil, List.reverse_eq_nil_iff] at e
    exact hne e

theorem natChars_digits (n : ℕ) : ∀ ch ∈ natChars n, ch.isDigit = true := by
  intro ch hch
  unfold natChars at hch
  split at hch
  · simp at hch
    subst hch
    decide
  · simp only [List.mem_map, List.mem_reverse] at hch
    obtain ⟨d, hd, rfl⟩ := hch
    exact digitChar_isDigit d (Nat.digits_lt_base (by norm_num) hd)

theorem map_digit_roundtrip (l : List ℕ) (hl : ∀ d ∈ l, d < 10) :
    (l.map fun d => Char.ofNat (48 + d)).map digitVal = l := by
  induction l with
  | nil => rfl
  | cons d ds ih =>
    simp only [List.map_cons, digitChar_val d (hl d (List.mem_cons_self d ds))]
    rw [ih fun x hx => hl x (List.mem_cons_of_mem d hx)]

theorem readNat_natChars (n : ℕ) : readNat (natChars n) = n := by
  unfold readNat natChars
  split
  · rename_i h0
    subst h0
    decide
  · rw [map_digit_roundtrip ((Nat.digits 10 n).reverse)
      (fun d hd => Nat.digits_lt_base (by norm_num) (List.mem_reverse.mp hd)),
      List.reverse_reverse, Nat.ofDigits_digits]

theorem takeWhile_all (p : Char → Bool) (l : List Char) (h : ∀ a ∈ l, p a = true) :
    l.takeWhile p = l := by
  induction l with
  | nil => rfl
  | cons c cs ih =>
    rw [List.takeWhile_cons, if_pos (h c (List.mem_cons_self c cs)),
      ih fun a ha => h a (List.mem_cons_of_mem c ha)]

theorem dropWhile_all (p : Char → Bool) (l : List Char) (h : ∀ a ∈ l, p a = true) :
    l.dropWhile p = [] := by
  induction l with
  | nil => rfl
  | cons c cs ih =>
    rw [List.dropWhile_cons, if_pos (h c (List.mem_cons_self c cs)),
      ih fun a ha => h a (List.mem_cons_of_mem c ha)]

theorem intChars_classify (n : ℤ) : ∀ ch ∈ intChars n, ch.isDigit = true ∨ ch = '-' := by
  intro ch hch
  unfold intChars at hch
  rcases List.mem_append.mp hch with h1 | h2
  · split at h1
    · right
      simpa using h1
    · simp at h1
  · left
    exact natChars_digits n.natAbs ch h2

theorem intChars_avoid (n : ℤ) : ∀ ch ∈ intChars n,
    ch ≠ ',' ∧ ch ≠ ']' ∧ ch ≠ ' ' ∧ ch ≠ '\n' := by
  intro ch hch
  rcases intChars_classify n ch hch with hd | rfl
  · refine ⟨?_, ?_, ?_, ?_⟩ <;> (intro e; subst e; exact absurd hd (by decide))
  · exact ⟨by decide, by decide, by decide, by decide⟩

theorem int_cast_num (q : ℚ) (h : q.den = 1) : ((q.num : ℚ)) = q := by
  conv_rhs => rw [← Rat.num_div_den q]
  rw [h]
  simp

theorem readNum_natBody (m : ℕ) :
    (natChars m).takeWhile Char.isDigit = natChars m ∧
    (natChars m).dropWhile Char.isDigit = [] :=
  ⟨takeWhile_all Char.isDigit (natChars m) (natChars_digits m),
   dropWhile_all Char.isDigit (natChars m) (natChars_digits m)⟩

theorem readNum_intChars (n : ℤ) : readNum (intChars n) = some ((n : ℚ)) := by
  by_cases hn : n < 0
  · have hform : intChars n = '-' :: natChars n.natAbs := by
      unfold intChars
      rw [if_pos hn]
      rfl
    rw [hform]
    unfold readNum
    rw [if_pos (show ('-' :: natChars n.natAbs).head? = some '-' from rfl)]
    dsimp only [List.tail_cons]
    rw [(readNum_natBody n.natAbs).1, (readNum_natBody n.natAbs).2,
      if_neg (natChars_ne_nil n.natAbs)]
    dsimp only
    rw [readNat_natChars]
    congr 1
    rw [if_pos rfl, Int.cast_natAbs, abs_of_neg hn]
    push_cast
    ring
  · have hform : intChars n = natChars n.natAbs := by
      unfold intChars
      rw [if_neg hn]
      rfl
    have hhead : (natChars n.natAbs).head? ≠ some '-' := by
      cases hm : natChars n.natAbs with
      | nil => simp
      | cons c0 cs0 =>
        have hd : c0.isDigit = true :=
          natChars_digits n.natAbs c0 (hm ▸ List.mem_cons_self c0 cs0)
        rw [List.head?_cons]
        intro e
        injection e with e
        subst e
        exact absurd hd (by decide)
    rw [hform]
    unfold readNum
    rw [if_neg hhead]
    dsimp only
    rw [(readNum_natBody n.natAbs).1, (readNum_natBody n.natAbs).2,
      if_neg (natChars_ne_nil n.natAbs)]
    dsimp only
    rw [readNat_natChars]
    congr 1
    rw [if_neg (by simp : ¬(false : Bool) = true), Int.cast_natAbs,
      abs_of_nonneg (not_lt.mp hn)]
    ring

theorem numChars_int (q : ℚ) (h : q.den = 1) : numChars q = intChars q.num := by
  unfold numChars
  rw [if_pos h]

theorem readNum_numChars (q : ℚ) (h : q.den = 1) : readNum (numChars q) = some q := by
  rw [numChars_int q h, readNum_intChars, int_cast_num q h]

theorem intChars_ne_nil (n : ℤ) : intChars n ≠ [] := by
  unfold intChars
  intro e
  exact natChars_ne_nil n.natAbs (List.append_eq_nil.mp e).2

theorem numChars_avoid (v : ℚ) (h : v.den = 1) : ∀ ch ∈ numChars v,
    ch ≠ ',' ∧ ch ≠ ']' ∧ ch ≠ ' ' ∧ ch ≠ '\n' := by
  intro ch hch
  rw [numChars_int v h] at hch
  exact intChars_avoid v.num ch hch

theorem numChars_ne_nil (v : ℚ) (h : v.den = 1) : numChars v ≠ [] := by
  rw [numChars_int v h]
  exact intChars_ne_nil v.num

theorem splitComma_cons_ne (c : Char) (cs : List Char) (hc : ¬c = ',') :
    splitComma (c :: cs) =
      match splitComma cs with
      | [] => [[c]]
      | g :: gs => (c :: g) :: gs := by
  have step : splitComma (c :: cs) =
      if c = ',' then [] :: splitComma cs
      else match splitComma cs with
        | [] => [[c]]
        | g :: gs => (c :: g) :: gs := rfl
  rw [step, if_neg hc]

theorem splitComma_join (x : List Char) (xs : List (List Char))
    (hx : ',' ∉ x) (hxs : ∀ y ∈ xs, ',' ∉ y) :
    splitComma (joinSep [',', ' '] (x :: xs)) = x :: xs.map fun y => ' ' :: y := by
  induction xs generalizing x with
  | nil => simpa using splitComma_single x hx
  | cons y ys ih =>
    rw [joinSep_cons, List.append_assoc,
      show ([',', ' '] : List Char) ++ joinSep [',', ' '] (y :: ys) =
        ',' :: ' ' :: joinSep [',', ' '] (y :: ys) from rfl,
      splitComma_append x _ hx,
      splitComma_cons_ne ' ' _ (by decide),
      ih y (hxs y (List.mem_cons_self y ys)) fun z hz => hxs z (List.mem_cons_of_mem y hz)]
    simp

theorem dropSpaces_id (x : List Char) (h : ∀ ch ∈ x, ch ≠ ' ') :
    x.dropWhile (fun c => c = ' ') = x := by
  cases x with
  | nil => rfl
  | cons c cs =>
    rw [List.dropWhile_cons, if_neg (by simp [h c (List.mem_cons_self c cs)])]

theorem dropSpaces_space (x : List Char) (h : ∀ ch ∈ x, ch ≠ ' ') :
    (' ' :: x).dropWhile (fun c => c = ' ') = x := by
  rw [List.dropWhile_cons, if_pos (by simp)]
  exact dropSpaces_id x h

theorem mapM_spaced (vs : List ℚ) (hint : ∀ v ∈ vs, v.den = 1) :
    ((vs.map numChars).map (fun y => ' ' :: y)).mapM
      (fun item => readNum (item.dropWhile (fun c => c = ' '))) = some vs := by
  induction vs with
  | nil => rfl
  | cons v rest ih =>
    rw [List.map_cons, List.map_cons, List.mapM_cons,
      dropSpaces_space (numChars v)
        (fun ch hch => (numChars_avoid v (hint v (List.mem_cons_self v rest)) ch hch).2.2.1),
      readNum_numChars v (hint v (List.mem_cons_self v rest)),
      ih fun w hw => hint w (List.mem_cons_of_mem v hw)]
    rfl

theorem readVals_numChars (vals : List ℚ) (hint : ∀ v ∈ vals, v.den = 1) :
    readVals (joinSep [',', ' '] (vals.map numChars)) = some vals := by
  cases vals with
  | nil => rfl
  | cons v vs =>
    have hvden := hint v (List.mem_cons_self v vs)
    have hnc : ∀ w ∈ v :: vs, ',' ∉ numChars w := fun w hw hmem =>
      (numChars_avoid w (hint w hw) ',' hmem).1 rfl
    have hinner : joinSep [',', ' '] ((v :: vs).map numChars) ≠ [] := by
      cases vs with
      | nil => simpa [joinSep] using numChars_ne_nil v hvden
      | cons w ws =>
        rw [List.map_cons, List.map_cons, joinSep_cons]
        intro e
        exact numChars_ne_nil v hvden (List.append_eq_nil.mp (List.append_eq_nil.mp e).1).1
    unfold readVals
    rw [if_neg hinner, List.map_cons,
      splitComma_join (numChars v) (vs.map numChars) (hnc v (List.mem_cons_self v vs))
        (by
          intro y hy
          obtain ⟨w, hw, rfl⟩ := List.mem_map.mp hy
          exact hnc w (List.mem_cons_of_mem v hw)),
      List.mapM_cons,
      dropSpaces_id (numChars v) (fun ch hch => (numChars_avoid v hvden ch hch).2.2.1),
      readNum_numChars v hvden,
      mapM_spaced vs fun w hw => hint w (List.mem_cons_of_mem v hw)]
    rfl

theorem joinSep_chars (vals : List ℚ) (hint : ∀ v ∈ vals, v.den = 1) :
    ∀ ch ∈ joinSep [',', ' '] (vals.map numChars), ch ≠ ']' ∧ ch ≠ '\n' := by
  induction vals with
  | nil =>
    intro ch hch
    simp [joinSep] at hch
  | cons v vs ih =>
    have hvden := hint v (List.mem_cons_self v vs)
    cases vs with
    | nil =>
      intro ch hch
      simp only [List.map_cons, List.map_nil] at hch
      exact ⟨(numChars_avoid v hvden ch hch).2.1, (numChars_avoid v hvden ch hch).2.2.2⟩
    | cons w ws =>
      intro ch hch
      rw [List.map_cons, List.map_cons, joinSep_cons] at hch
      rcases List.mem_append.mp hch with h1 | h2
      · rcases List.mem_append.mp h1 with h1a | h1b
        · exact ⟨(numChars_avoid v hvden ch h1a).2.1, (numChars_avoid v hvden ch h1a).2.2.2⟩
        · simp only [List.mem_cons, List.not_mem_nil, or_false] at h1b
          rcases h1b with rfl | rfl <;> exact ⟨by decide, by decide⟩
      · exact ih (fun u hu => hint u (List.mem_cons_of_mem v hu)) ch h2

theorem string_mk_data (s : String) : String.mk s.data = s := rfl

theorem dropPre_single (c : Char) (rest : List Char) : dropPre [c] (c :: rest) = some rest := by
  simp [dropPre]

theorem readColumn_ok (col : String) (vals : List ℚ) (comma : Bool) (rest : List Char)
    (hq : '\'' ∉ col.data) (hint : ∀ v ∈ vals, v.den = 1) :
    readColumn (colLineChars col vals comma ++ '\n' :: rest) = some ((col, vals), rest) := by
  have hshape : colLineChars col vals comma ++ '\n' :: rest =
      "    '".data ++ (col.data ++ '\'' :: ((": [" : String).data ++
        (joinSep [',', ' '] (vals.map numChars) ++ ']' ::
          ((if comma then [','] else []) ++ '\n' :: rest)))) := by
    unfold colLineChars
    rw [show ("': [" : String).data = '\'' :: (": [" : String).data from rfl]
    simp [List.append_assoc]
  rw [hshape]
  unfold readColumn
  rw [dropPre_append]
  simp only [Option.bind_eq_bind, Option.some_bind]
  rw [scanTo_append '\'' col.data _ hq]
  simp only [Option.bind_eq_bind, Option.some_bind]
  rw [dropPre_append]
  simp only [Option.bind_eq_bind, Option.some_bind]
  rw [scanTo_append ']' _ _
    (fun hm => ((joinSep_chars vals hint ']' hm).1 rfl))]
  simp only [Option.bind_eq_bind, Option.some_bind]
  rw [readVals_numChars vals hint]
  simp only [Option.bind_eq_bind, Option.some_bind]
  cases comma <;> simp [dropPre_single, string_mk_data]

theorem codeLines_length_lower : ∀ (cols : DataFrame) (n i : ℕ),
    cols.length ≤ (joinSep ['\n'] (codeLines n i cols ++ [['\x7d', ')']])).length := by
  intro cols
  induction cols with
  | nil => simp
  | cons p cs ih =>
    intro n i
    cases hcl : codeLines n (i + 1) cs ++ [['\x7d', ')']] with
    | nil => exact absurd hcl (by simp)
    | cons y ys =>
      rw [show codeLines n i (p :: cs) =
        colLineChars p.1 p.2 (decide (i < n - 1)) :: codeLines n (i + 1) cs from rfl,
        List.cons_append, hcl, joinSep_cons]
      have h1 := ih n (i + 1)
      rw [hcl] at h1
      simp only [List.length_cons, List.length_append]
      omega

theorem readColumns_ok : ∀ (cols : DataFrame), ∀ (fuel n i : ℕ),
    cols.length ≤ fuel → (∀ p ∈ cols, '\'' ∉ p.1.data) →
    (∀ p ∈ cols, ∀ v ∈ p.2, v.den = 1) →
    readColumns fuel (joinSep ['\n'] (codeLines n i cols ++ [['\x7d', ')']])) = some cols := by
  intro cols
  induction cols with
  | nil =>
    intro fuel n i _ _ _
    have harg : joinSep ['\n'] (codeLines n i ([] : DataFrame) ++ [['\x7d', ')']]) =
        ['\x7d', ')'] := rfl
    rw [harg, readColumns.eq_def]
    dsimp only
    rw [if_pos rfl]
  | cons p cs ih =>
    intro fuel n i hfuel hq hint
    cases hcl : codeLines n (i + 1) cs ++ [['\x7d', ')']] with
    | nil => exact absurd hcl (by simp)
    | cons y ys =>
      have hjoin : joinSep ['\n'] (codeLines n i (p :: cs) ++ [['\x7d', ')']]) =
          colLineChars p.1 p.2 (decide (i < n - 1)) ++
            '\n' :: joinSep ['\n'] (y :: ys) := by
        rw [show codeLines n i (p :: cs) =
          colLineChars p.1 p.2 (decide (i < n - 1)) :: codeLines n (i + 1) cs from rfl,
          List.cons_append, hcl, joinSep_cons]
        simp [List.append_assoc]
      cases fuel with
      | zero => simp at hfuel
      | succ fuel =>
        rw [hjoin, readColumns.eq_def]
        dsimp only
        rw [if_neg ?hne]
        case hne =>
          intro e
          have he := congrArg List.head? e
          rw [show colLineChars p.1 p.2 (decide (i < n - 1)) ++
              '\n' :: joinSep ['\n'] (y :: ys) =
              ' ' :: ("   '".data ++ (p.1.data ++ "': [".data ++
                joinSep [',', ' '] (p.2.map numChars) ++ [']'] ++
                (if decide (i < n - 1) then [','] else []) ++
                '\n' :: joinSep ['\n'] (y :: ys))) from by
            unfold colLineChars
            simp [List.append_assoc]] at he
          simp at he
        rw [readColumn_ok p.1 p.2 (decide (i < n - 1)) (joinSep ['\n'] (y :: ys))
          (hq p (List.mem_cons_self p cs)) (hint p (List.mem_cons_self p cs))]
        simp only [Option.bind_eq_bind, Option.some_bind]
        rw [← hcl, ih fuel n (i + 1) (by simpa using Nat.le_of_succ_le_succ hfuel)
          (fun x hx => hq x (List.mem_cons_of_mem p hx))
          (fun x hx => hint x (List.mem_cons_of_mem p hx))]
        simp

theorem string_data_append (s t : String) : (s ++ t).data = s.data ++ t.data := by
  cases s
  cases t
  rfl

theorem codeChars_shape (df : DataFrame) (name : String) :
    (dataframe_to_code df name).data =
      (name ++ " = pd.DataFrame(\x7b\n").data ++
        joinSep ['\n'] (codeLines df.length 0 df ++ [['\x7d', ')']]) := by
  have h0 : (dataframe_to_code df name).data =
      joinSep ['\n'] ((name.data ++ (" = pd.DataFrame(\x7b" : String).data) ::
        (codeLines df.length 0 df ++ [['\x7d', ')']])) := by
    unfold dataframe_to_code codeChars
    rw [List.cons_append]
  rw [h0]
  cases hcl : codeLines df.length 0 df ++ [['\x7d', ')']] with
  | nil => exact absurd hcl (by simp)
  | cons y ys =>
    rw [joinSep_cons, string_data_append,
      show (" = pd.DataFrame(\x7b\n" : String).data =
        (" = pd.DataFrame(\x7b" : String).data ++ ['\n'] from rfl]
    simp [List.append_assoc]

theorem evalTable_roundtrip (df : DataFrame) (name : String)
    (hwf : df.all (fun col => col.2.length = dfLen df) = true)
    (hq : ∀ p ∈ df, '\'' ∉ p.1.data)
    (hint : ∀ p ∈ df, ∀ v ∈ p.2, v.den = 1) :
    evalTableConstructor (dataframe_to_code df name) name = some df := by
  unfold evalTableConstructor
  rw [codeChars_shape, dropPre_append]
  simp only [Option.bind_eq_bind, Option.some_bind]
  rw [readColumns_ok df _ df.length 0 (codeLines_length_lower df df.length 0) hq hint]
  simp only [Option.bind_eq_bind, Option.some_bind]
  rw [if_pos hwf]

/-- C6: parsing the text produced by `dataframe_to_code` recovers the
serialised dataset exactly — columns in order, values preserved — for every
well-formed dataset whose values are integral (so that the `str(int(val))`
branch renders them losslessly) and whose column names are quote-free, and
which carries the four required OHLC columns. -/
theorem serialize_parse_roundtrip (df : DataFrame) (name : String)
    (hwf : df.all (fun col => col.2.length = dfLen df) = true)
    (hint : ∀ p ∈ df, ∀ v ∈ p.2, v.den = 1)
    (hq : ∀ p ∈ df, '\'' ∉ p.1.data)
    (hreq : ∀ col ∈ required_columns, col ∈ colNames df) :
    parse_dataframe_from_buffer (dataframe_to_code df name) name = ⟨true, some df, none⟩ := by
  unfold parse_dataframe_from_buffer
  rw [evalTable_roundtrip df name hwf hq hint]
  have hmiss : (required_columns.filter fun col => ¬ (colNames df).contains col) = [] := by
    rw [List.filter_eq_nil_iff]
    intro a ha
    simpa using hreq a ha
  simp [hmiss]
  exact hreq

theorem serialize_parse_roundtrip_witness :
    parse_dataframe_from_buffer
      (dataframe_to_code
        [("Open", [100, 105]), ("High", [110, 112]), ("Low", [90, 95]),
          ("Close", [105, 110]), ("Volume", [1000, 1200])] "df") "df" =
      ⟨true, some [("Open", [100, 105]), ("High", [110, 112]), ("Low", [90, 95]),
        ("Close", [105, 110]), ("Volume", [1000, 1200])], none⟩ :=
  serialize_parse_roundtrip
    [("Open", [100, 105]), ("High", [110, 112]), ("Low", [90, 95]),
      ("Close", [105, 110]), ("Volume", [1000, 1200])] "df"
    (by decide) (by decide) (by decide) (by decide)

end VimTrader

